import Mathlib

/-!
Verification of the backup artifact lifecycle manager in
`cmd/lambda/main.go` (the checksum-aware revision): content
fingerprinting, dedup gate, tiered rotation writes, and daily-tier
retention pruning.  Go byte slices are modelled as `List Nat`
(byte values), S3 as an association list from keys to stored objects,
and each store interaction is additionally recorded as an `Event`
so that theorems can speak about which operations a run performs.
-/

/-- Bytes of an ASCII string (used for the Go `[]byte("...")` literals). -/
def strBytes (s : String) : List Nat := s.data.map Char.toNat

/-- `bytes.Split(data, [10])`: split a byte list on the newline byte.
Mirrors Go semantics: splitting the empty slice yields one empty piece. -/
def splitOnByte (b : Nat) : List Nat → List (List Nat)
  | [] => [[]]
  | x :: rest =>
    if x == b then [] :: splitOnByte b rest
    else
      match splitOnByte b rest with
      | [] => [[x]]
      | y :: ys => (x :: y) :: ys

/-- `bytes.Join(ls, [10])`: interleave the separator byte between pieces. -/
def joinBytes (b : Nat) : List (List Nat) → List Nat
  | [] => []
  | [l] => l
  | l :: l' :: ls => l ++ b :: joinBytes b (l' :: ls)

/-- Bytes of `"-- Started on "`. -/
def startedMarker : List Nat := strBytes "-- Started on "

/-- Bytes of `"-- Completed on "`. -/
def completedMarker : List Nat := strBytes "-- Completed on "

/-- A line is dropped by normalization when it starts with one of the
two generation-timestamp markers (`removeTimestampComments` loop test). -/
def isTimestampLine (l : List Nat) : Bool :=
  startedMarker.isPrefixOf l || completedMarker.isPrefixOf l

/-- Embeds `removeTimestampComments`: split on newlines, drop marker
lines, rejoin with newlines. -/
def removeTimestampComments (data : List Nat) : List Nat :=
  joinBytes 10 ((splitOnByte 10 data).filter (fun l => !isTimestampLine l))

/- SHA-256, as used by `calculateChecksum` (crypto/sha256 + hex). -/

/-- Truncate to a 32-bit word. -/
def w32 (n : Nat) : Nat := n % 4294967296

/-- 32-bit modular addition. -/
def wadd (a b : Nat) : Nat := (a + b) % 4294967296

/-- 32-bit rotate right. -/
def rotr (k n : Nat) : Nat := w32 ((n >>> k) ||| (n <<< (32 - k)))

def bigSigma0 (x : Nat) : Nat := (rotr 2 x) ^^^ (rotr 13 x) ^^^ (rotr 22 x)

def bigSigma1 (x : Nat) : Nat := (rotr 6 x) ^^^ (rotr 11 x) ^^^ (rotr 25 x)

def smallSigma0 (x : Nat) : Nat := (rotr 7 x) ^^^ (rotr 18 x) ^^^ (x >>> 3)

def smallSigma1 (x : Nat) : Nat := (rotr 17 x) ^^^ (rotr 19 x) ^^^ (x >>> 10)

def chFun (x y z : Nat) : Nat := (x &&& y) ^^^ ((x ^^^ 4294967295) &&& z)

def majFun (x y z : Nat) : Nat := (x &&& y) ^^^ (x &&& z) ^^^ (y &&& z)

/-- The SHA-256 round constants. -/
def sha256K : List Nat :=
  [1116352408, 1899447441, 3049323471, 3921009573,
   961987163, 1508970993, 2453635748, 2870763221,
   3624381080, 310598401, 607225278, 1426881987,
   1925078388, 2162078206, 2614888103, 3248222580,
   3835390401, 4022224774, 264347078, 604807628,
   770255983, 1249150122, 1555081692, 1996064986,
   2554220882, 2821834349, 2952996808, 3210313671,
   3336571891, 3584528711, 113926993, 338241895,
   666307205, 773529912, 1294757372, 1396182291,
   1695183700, 1986661051, 2177026350, 2456956037,
   2730485921, 2820302411, 3259730800, 3345764771,
   3516065817, 3600352804, 4094571909, 275423344,
   430227734, 506948616, 659060556, 883997877,
   958139571, 1322822218, 1537002063, 1747873779,
   1955562222, 2024104815, 2227730452, 2361852424,
   2428436474, 2756734187, 3204031479, 3329325298]

/-- The SHA-256 initial hash state. -/
def sha256H0 : List Nat :=
  [1779033703, 3144134277, 1013904242, 2773480762,
   1359893119, 2600822924, 528734635, 1541459225]

/-- Big-endian byte rendering of `n` on `k` bytes. -/
def beBytes (k n : Nat) : List Nat :=
  (List.range k).map (fun i => (n >>> (8 * (k - 1 - i))) % 256)

/-- SHA-256 message padding: append `0x80`, zero bytes to 56 mod 64,
then the bit length on 8 big-endian bytes. -/
def padMessage (msg : List Nat) : List Nat :=
  msg ++ [128] ++ List.replicate ((119 - msg.length % 64) % 64) 0
      ++ beBytes 8 (msg.length * 8)

/-- Group bytes into big-endian 32-bit words. -/
def toWords : List Nat → List Nat
  | a :: b :: c :: d :: rest => (((a * 256 + b) * 256 + c) * 256 + d) :: toWords rest
  | _ => []

/-- One step of the message-schedule extension. -/
def stepW (w : List Nat) : List Nat :=
  let n := w.length
  w ++ [wadd (wadd (smallSigma1 (w.getD (n - 2) 0)) (w.getD (n - 7) 0))
             (wadd (smallSigma0 (w.getD (n - 15) 0)) (w.getD (n - 16) 0))]

/-- Extend a 16-word block to the 64-word schedule. -/
def extendW (w : List Nat) : List Nat :=
  (List.range 48).foldl (fun acc _ => stepW acc) w

/-- One SHA-256 round on the 8-word working state. -/
def sha256Round (st : List Nat) (wk : Nat × Nat) : List Nat :=
  match st with
  | [a, b, c, d, e, f, g, h] =>
    let t1 := wadd h (wadd (bigSigma1 e) (wadd (chFun e f g) (wadd wk.2 wk.1)))
    let t2 := wadd (bigSigma0 a) (majFun a b c)
    [wadd t1 t2, a, b, c, wadd d t1, e, f, g]
  | other => other

/-- Compress one 16-word block into the hash state. -/
def sha256Compress (h : List Nat) (block : List Nat) : List Nat :=
  let w := extendW block
  let st := (w.zip sha256K).foldl sha256Round h
  h.zipWith wadd st

/-- Iterate compression over `fuel` 16-word blocks. -/
def sha256Iter : Nat → List Nat → List Nat → List Nat
  | 0, h, _ => h
  | n + 1, h, ws => sha256Iter n (sha256Compress h (ws.take 16)) (ws.drop 16)

/-- SHA-256 digest (32 bytes) of a byte list. -/
def sha256Bytes (msg : List Nat) : List Nat :=
  let padded := padMessage msg
  let final := sha256Iter (padded.length / 64) sha256H0 (toWords padded)
  final.foldr (fun w acc => beBytes 4 w ++ acc) []

/-- Lowercase hex digit. -/
def hexChar (n : Nat) : Char :=
  Char.ofNat (if n < 10 then 48 + n else 87 + n)

/-- `hex.EncodeToString`: lowercase hex rendering of a byte list. -/
def hexEncode (bs : List Nat) : String :=
  ⟨bs.foldr (fun b acc => hexChar (b / 16) :: hexChar (b % 16) :: acc) []⟩

/-- Embeds `calculateChecksum`: hex-encoded SHA-256 of the payload. -/
def calculateChecksum (data : List Nat) : String := hexEncode (sha256Bytes data)

/- Dates and key formatting.  Go `time.Time` values are modelled by a
civil date plus seconds within the day; ordering and differences are
all the orchestrator uses, via the absolute-second scale below. -/

/-- A wall-clock instant as Go's lambda sees it (UTC): civil date plus
the second within the day. -/
structure DateTime where
  y : Nat
  m : Nat
  d : Nat
  sod : Nat
deriving DecidableEq, Repr

/-- Gregorian leap-year test. -/
def isLeap (y : Nat) : Bool := y % 4 == 0 && (y % 100 != 0 || y % 400 == 0)

/-- Length of a civil month. -/
def daysInMonth (y m : Nat) : Nat :=
  if m == 2 then (if isLeap y then 29 else 28)
  else if m == 4 || m == 6 || m == 9 || m == 11 then 30 else 31

/-- Civil date to a linear day count (days-from-civil algorithm with the
year shifted by +400 so the count stays in `Nat`); only ordering and
differences of this count are ever used, matching `time.Time`. -/
def dateToDayNumber (y m d : Nat) : Nat :=
  let yy := if m ≤ 2 then y + 399 else y + 400
  let era := yy / 400
  let yoe := yy % 400
  let mp := (m + 9) % 12
  let doy := (153 * mp + 2) / 5 + (d - 1)
  let doe := yoe * 365 + yoe / 4 - yoe / 100 + doy
  era * 146097 + doe

/-- Absolute second count of an instant (the scale of `time.Now()`). -/
def nowSec (t : DateTime) : Nat := dateToDayNumber t.y t.m t.d * 86400 + t.sod

/-- ASCII decimal digit test. -/
def isDigitB (c : Char) : Bool := 48 ≤ c.toNat && c.toNat ≤ 57

/-- Value of an ASCII digit. -/
def dval (c : Char) : Nat := c.toNat - 48

/-- Embeds `time.Parse("2006-01-02", s)`: exactly `YYYY-MM-DD`, with the
month and day range-checked (Go rejects out-of-range components). -/
def parseDate (s : String) : Option (Nat × Nat × Nat) :=
  match s.data with
  | [y1, y2, y3, y4, s1, m1, m2, s2, d1, d2] =>
    if isDigitB y1 && isDigitB y2 && isDigitB y3 && isDigitB y4 && s1 == '-' &&
       isDigitB m1 && isDigitB m2 && s2 == '-' && isDigitB d1 && isDigitB d2 then
      let y := ((dval y1 * 10 + dval y2) * 10 + dval y3) * 10 + dval y4
      let m := dval m1 * 10 + dval m2
      let d := dval d1 * 10 + dval d2
      if 1 ≤ m ∧ m ≤ 12 ∧ 1 ≤ d ∧ d ≤ daysInMonth y m then some (y, m, d) else none
    else none
  | _ => none

/-- `strings.TrimSuffix`. -/
def trimSuffix (s suf : String) : String :=
  if suf.data.isSuffixOf s.data then ⟨s.data.take (s.data.length - suf.data.length)⟩ else s

/-- Character-level split on a separator character (same semantics as
Go's `strings.Split` with a one-character separator). -/
def splitOnCharList (c : Char) : List Char → List (List Char)
  | [] => [[]]
  | x :: rest =>
    if x == c then [] :: splitOnCharList c rest
    else
      match splitOnCharList c rest with
      | [] => [[x]]
      | y :: ys => (x :: y) :: ys

/-- `strings.Split(key, "/")`. -/
def splitSlash (s : String) : List String :=
  (splitOnCharList '/' s.data).map (fun l => ⟨l⟩)

/-- `strings.HasPrefix` / S3 key-prefix matching. -/
def hasPrefixS (pre s : String) : Bool := pre.data.isPrefixOf s.data

/-- Decimal rendering left-padded with zeros to width `w`
(Go `Format` zero-pads date components). -/
def padNum (w n : Nat) : String :=
  let s := toString n
  if s.length < w then ⟨List.replicate (w - s.length) '0'⟩ ++ s else s

/-- `now.Format("2006")`. -/
def fmtYear (t : DateTime) : String := padNum 4 t.y

/-- `now.Format("2006-01")`. -/
def fmtMonth (t : DateTime) : String := padNum 4 t.y ++ "-" ++ padNum 2 t.m

/-- `now.Format("2006-01-02")`. -/
def fmtDay (t : DateTime) : String := fmtMonth t ++ "-" ++ padNum 2 t.d

/-- `fmt.Sprintf("daily/%s-backup.sql", day)`. -/
def dailyKeyOf (t : DateTime) : String := "daily/" ++ fmtDay t ++ "-backup.sql"

/-- `fmt.Sprintf("monthly/%s-backup.sql", month)`. -/
def monthlyKeyOf (t : DateTime) : String := "monthly/" ++ fmtMonth t ++ "-backup.sql"

/-- `fmt.Sprintf("yearly/%s-backup.sql", year)`. -/
def yearlyKeyOf (t : DateTime) : String := "yearly/" ++ fmtYear t ++ "-backup.sql"

/- The blob store model and the operation/event trace. -/

/-- One stored S3 object: its byte payload, the optional `sha256`
metadata field, and the store-tracked modification time. -/
structure S3Object where
  payload : List Nat
  sha256Meta : Option String
  lastModified : Nat
deriving DecidableEq, Repr

/-- The store plus fault injection: keys whose `HeadObject`, `GetObject`,
`PutObject` or `DeleteObject` calls fail with a non-NotFound error, and
whether `ListObjectsV2` fails. -/
structure S3State where
  objects : List (String × S3Object)
  headErrKeys : List String
  getErrKeys : List String
  putErrKeys : List String
  delErrKeys : List String
  listFails : Bool
deriving DecidableEq, Repr

/-- Look an object up by key (first match). -/
def findObj (s : S3State) (k : String) : Option S3Object :=
  (s.objects.find? (fun p => p.1 == k)).map (fun p => p.2)

/-- One store interaction or log line performed by a run. -/
inductive Event where
  | listOp (pre : String)
  | headOp (key : String)
  | getOp (key : String)
  | putOp (key : String) (payload : List Nat) (meta : Option String)
  | delOp (key : String)
  | warnOp (msg : String)
deriving DecidableEq, Repr

/-- Is an event a `PutObject` call? -/
def isPutEv : Event → Bool
  | .putOp _ _ _ => true
  | _ => false

/-- Embeds `objectExists`: head the key, translating NotFound to a
normal `false` and surfacing any other error. -/
def objectExists (s : S3State) (k : String) : Except String Bool :=
  if s.headErrKeys.contains k then .error "head request failed"
  else if (findObj s k).isSome then .ok true else .ok false

/-- Embeds `uploadToS3WithChecksum`: put the payload with the checksum
as the `sha256` metadata field. -/
def uploadToS3WithChecksum (s : S3State) (k : String) (data : List Nat)
    (checksum : String) (wt : Nat) : Except String Unit × S3State :=
  if s.putErrKeys.contains k then (.error "put failed", s)
  else (.ok (), { s with
    objects := (k, ⟨data, some checksum, wt⟩) :: s.objects.filter (fun p => !(p.1 == k)) })

/-- Embeds `getObjectChecksum`: head the key; use the `sha256` metadata
field when present, otherwise fetch the payload and re-hash it. -/
def getObjectChecksum (s : S3State) (k : String) : Except String String × List Event :=
  if s.headErrKeys.contains k then (.error "head request failed", [Event.headOp k])
  else
    match findObj s k with
    | none => (.error "NotFound", [Event.headOp k])
    | some o =>
      match o.sha256Meta with
      | some c => (.ok c, [Event.headOp k])
      | none =>
        if s.getErrKeys.contains k then (.error "get failed", [Event.headOp k, Event.getOp k])
        else (.ok (calculateChecksum o.payload), [Event.headOp k, Event.getOp k])

/-- The loop of `findMostRecentBackup`: keep the entry with the latest
`LastModified`, the first listed winning ties (strict `After`). -/
def pickMostRecent (x : String × S3Object) : List (String × S3Object) → String × S3Object
  | [] => x
  | y :: rest => pickMostRecent (if y.2.lastModified > x.2.lastModified then y else x) rest

/-- Embeds `findMostRecentBackup`: list the prefix and pick the entry
with the latest modification time; empty listing yields `""`. -/
def findMostRecentBackup (s : S3State) (pre : String) : Except String String × List Event :=
  if s.listFails then (.error "list failed", [Event.listOp pre])
  else
    match s.objects.filter (fun p => hasPrefixS pre p.1) with
    | [] => (.ok "", [Event.listOp pre])
    | x :: rest => (.ok (pickMostRecent x rest).1, [Event.listOp pre])

/- The daily-tier pruner (`cleanupOldDailyBackups`).  The Go loop body is
split into its deletion decision (`staleDailyKey`), its store effect
(`cleanupStepStore`) and its operation/log output (`stepEvents`). -/

/-- The date fragment the pruner reads out of a listed key:
`strings.TrimSuffix(parts[1], "-backup.sql")`. -/
def datePartOf (key : String) : String :=
  trimSuffix ((splitSlash key).getD 1 "") "-backup.sql"

/-- The pruner's deletion decision for one listed key: the key splits on
`/` into exactly two parts, the date parses after trimming
`-backup.sql`, and that date (midnight) is before `now.AddDate(0,0,-7)`. -/
def staleDailyKey (nowS : Nat) (key : String) : Bool :=
  if (splitSlash key).length == 2 then
    match parseDate (datePartOf key) with
    | some (y, m, d) => decide (dateToDayNumber y m d * 86400 < nowS - 604800)
    | none => false
  else false

/-- The store effect of one pruner iteration: remove the key when it is
stale and its deletion does not fail. -/
def cleanupStepStore (nowS : Nat) (s : S3State) (key : String) : S3State :=
  if staleDailyKey nowS key && !(s.delErrKeys.contains key) then
    { s with objects := s.objects.filter (fun p => !(p.1 == key)) }
  else s

/-- The operations and warnings of one pruner iteration: a parse failure
warns and skips, a stale key is deleted, and a failed deletion warns. -/
def stepEvents (delErr : List String) (nowS : Nat) (key : String) : List Event :=
  if (splitSlash key).length == 2 then
    match parseDate (datePartOf key) with
    | none => [Event.warnOp ("failed to parse date from key " ++ key)]
    | some (y, m, d) =>
      if dateToDayNumber y m d * 86400 < nowS - 604800 then
        if delErr.contains key then
          [Event.delOp key, Event.warnOp ("failed to delete old backup " ++ key)]
        else [Event.delOp key]
      else []
  else []

/-- One iteration of the pruner's loop over the listing. -/
def cleanupStep (nowS : Nat) (acc : S3State × List Event) (key : String) :
    S3State × List Event :=
  (cleanupStepStore nowS acc.1 key, acc.2 ++ stepEvents acc.1.delErrKeys nowS key)

/-- Result of the pruner: its error (only a listing failure is fatal),
the store afterwards, and the operations performed. -/
structure CleanupOut where
  res : Except String Unit
  store : S3State
  events : List Event
deriving Repr

/-- Embeds `cleanupOldDailyBackups`: list the `daily/` prefix and run
the per-key loop over the listed keys. -/
def cleanupOldDailyBackups (s : S3State) (nowS : Nat) : CleanupOut :=
  if s.listFails then
    ⟨.error "failed to list daily backups: list failed", s, [Event.listOp "daily/"]⟩
  else
    let listing := (s.objects.filter (fun p => hasPrefixS "daily/" p.1)).map Prod.fst
    let r := listing.foldl (cleanupStep nowS) (s, [Event.listOp "daily/"])
    ⟨.ok (), r.1, r.2⟩

/- The orchestrator (`HandleRequest`). -/

/-- The dedup gate of `HandleRequest`: find the most recent daily
object (a failure only warns), fetch its checksum, and report whether
content changed; any lookup failure means "assume changed". -/
def dedupPhase (cs : String) (s : S3State) : Bool × List Event :=
  let fr := findMostRecentBackup s "daily/"
  match fr.1 with
  | .error e => (true, fr.2 ++ [Event.warnOp ("couldn't find most recent backup: " ++ e)])
  | .ok k =>
    if k == "" then (true, fr.2)
    else
      let gc := getObjectChecksum s k
      match gc.1 with
      | .ok c => (!(c == cs), fr.2 ++ gc.2)
      | .error _ => (true, fr.2 ++ gc.2)

/-- The mandatory daily write of `HandleRequest`; its failure is fatal. -/
def dailyPhase (data : List Nat) (cs : String) (now : DateTime) (s : S3State) :
    Except String Unit × S3State × List Event :=
  let key := dailyKeyOf now
  match uploadToS3WithChecksum s key data cs (nowSec now) with
  | (.error e, s') =>
    (.error ("failed to upload daily backup: " ++ e), s', [Event.putOp key data (some cs)])
  | (.ok _, s') => (.ok (), s', [Event.putOp key data (some cs)])

/-- The monthly/yearly step of `HandleRequest`: existence check, then a
write only when no object exists at the key; both failures are
propagated as errors. -/
def tierPhase (label key : String) (data : List Nat) (cs : String) (wt : Nat)
    (s : S3State) : Except String Unit × S3State × List Event :=
  match objectExists s key with
  | .error e => (.error ("failed to check " ++ label ++ " backup: " ++ e), s, [Event.headOp key])
  | .ok true => (.ok (), s, [Event.headOp key])
  | .ok false =>
    match uploadToS3WithChecksum s key data cs wt with
    | (.error e, s') =>
      (.error ("failed to upload " ++ label ++ " backup: " ++ e), s',
        [Event.headOp key, Event.putOp key data (some cs)])
    | (.ok _, s') => (.ok (), s', [Event.headOp key, Event.putOp key data (some cs)])

/-- Aggregate outcome of one `HandleRequest` run: the returned error (if
any), the store afterwards, the operations performed, and whether the
pruning step was reached. -/
structure RunOut where
  err : Option String
  store : S3State
  events : List Event
  cleanupRan : Bool
deriving Repr

/-- Embeds `HandleRequest` (checksum revision): normalize the dump,
fingerprint it, run the dedup gate (returning immediately on unchanged
content), write the daily tier, evaluate monthly and yearly, and prune
old daily objects (pruner failure only warns). -/
def HandleRequest (rawDump : List Nat) (now : DateTime) (s0 : S3State) : RunOut :=
  let data := removeTimestampComments rawDump
  let cs := calculateChecksum data
  let ded := dedupPhase cs s0
  if ded.1 then
    match dailyPhase data cs now s0 with
    | (.error e, s1, ev1) => ⟨some e, s1, ded.2 ++ ev1, false⟩
    | (.ok _, s1, ev1) =>
      match tierPhase "monthly" (monthlyKeyOf now) data cs (nowSec now) s1 with
      | (.error e, s2, ev2) => ⟨some e, s2, ded.2 ++ ev1 ++ ev2, false⟩
      | (.ok _, s2, ev2) =>
        match tierPhase "yearly" (yearlyKeyOf now) data cs (nowSec now) s2 with
        | (.error e, s3, ev3) => ⟨some e, s3, ded.2 ++ ev1 ++ ev2 ++ ev3, false⟩
        | (.ok _, s3, ev3) =>
          let c := cleanupOldDailyBackups s3 (nowSec now)
          let evC := c.events ++
            (match c.res with
             | .error e => [Event.warnOp ("failed to clean up old daily backups: " ++ e)]
             | .ok _ => [])
          ⟨none, c.store, ded.2 ++ ev1 ++ ev2 ++ ev3 ++ evC, true⟩
  else ⟨none, s0, ded.2, false⟩

/- Lemmas about the line-level normalization. -/

theorem splitOnByte_ne_nil (b : Nat) (data : List Nat) : splitOnByte b data ≠ [] := by
  cases data with
  | nil => simp [splitOnByte]
  | cons x rest =>
    simp only [splitOnByte]
    split
    · simp
    · split <;> simp

theorem not_mem_of_mem_splitOnByte (b : Nat) (data : List Nat) :
    ∀ l ∈ splitOnByte b data, b ∉ l := by
  induction data with
  | nil => intro l hl; simp [splitOnByte] at hl; simp [hl]
  | cons x rest ih =>
    intro l hl
    simp only [splitOnByte] at hl
    by_cases hx : (x == b) = true
    · rw [if_pos hx] at hl
      rcases List.mem_cons.mp hl with h | h
      · simp [h]
      · exact ih l h
    · rw [if_neg hx] at hl
      rcases hrec : splitOnByte b rest with _ | ⟨y, ys⟩
      · exact absurd hrec (splitOnByte_ne_nil b rest)
      · rw [hrec] at hl
        rcases List.mem_cons.mp hl with h | h
        · subst h
          intro hmem
          rcases List.mem_cons.mp hmem with h' | h'
          · exact hx (by simp [h'])
          · exact ih y (by simp [hrec]) h'
        · exact ih l (by simp [hrec, List.mem_cons]; right; exact h)

theorem splitOnByte_of_not_mem (b : Nat) (l : List Nat) (h : b ∉ l) :
    splitOnByte b l = [l] := by
  induction l with
  | nil => simp [splitOnByte]
  | cons x rest ih =>
    simp only [List.mem_cons, not_or] at h
    have hx : (x == b) = false := beq_eq_false_iff_ne.mpr (fun hxb => h.1 hxb.symm)
    have hr := ih h.2
    simp [splitOnByte, hx, hr]

theorem splitOnByte_append_cons (b : Nat) (l rest : List Nat) (h : b ∉ l) :
    splitOnByte b (l ++ b :: rest) = l :: splitOnByte b rest := by
  induction l with
  | nil => simp [splitOnByte]
  | cons x xs ih =>
    simp only [List.mem_cons, not_or] at h
    have hx : (x == b) = false := beq_eq_false_iff_ne.mpr (fun hxb => h.1 hxb.symm)
    have hr := ih h.2
    simp only [List.cons_append, splitOnByte, hx, List.append_eq, hr]
    simp

theorem splitOnByte_joinBytes (b : Nat) (ls : List (List Nat)) (hne : ls ≠ [])
    (hfree : ∀ l ∈ ls, b ∉ l) : splitOnByte b (joinBytes b ls) = ls := by
  induction ls with
  | nil => exact absurd rfl hne
  | cons l ls ih =>
    cases ls with
    | nil => exact splitOnByte_of_not_mem b l (hfree l (by simp))
    | cons l' ls' =>
      have h1 : b ∉ l := hfree l (by simp)
      rw [show joinBytes b (l :: l' :: ls') = l ++ b :: joinBytes b (l' :: ls') from rfl]
      rw [splitOnByte_append_cons b l _ h1]
      rw [ih (by simp) (fun x hx => hfree x (List.mem_cons_of_mem l hx))]

/-- Normalization is idempotent (shared core of the C8 claim). -/
theorem removeTimestampComments_idem (x : List Nat) :
    removeTimestampComments (removeTimestampComments x) = removeTimestampComments x := by
  unfold removeTimestampComments
  set p : List Nat → Bool := fun l => !isTimestampLine l with hp
  rcases hls : (splitOnByte 10 x).filter p with _ | ⟨l, ls⟩
  · simp [joinBytes, splitOnByte, isTimestampLine, startedMarker, completedMarker,
      strBytes, List.isPrefixOf, p]
  · have hfree : ∀ l' ∈ (splitOnByte 10 x).filter p, (10 : Nat) ∉ l' := by
      intro l' hl'
      exact not_mem_of_mem_splitOnByte 10 x l' (List.mem_of_mem_filter hl')
    rw [← hls, splitOnByte_joinBytes 10 _ (by rw [hls]; simp) hfree]
    rw [List.filter_filter]
    simp

/- Key shape lemmas: the three tier keys live under distinct prefixes. -/

theorem isPrefixOf_cons_ne {c1 c2 : Char} (l1 l2 : List Char) (h : c1 ≠ c2) :
    List.isPrefixOf (c1 :: l1) (c2 :: l2) = false := by
  simp [List.isPrefixOf_cons₂, h]

theorem hasPrefixS_daily_monthly (t : DateTime) :
    hasPrefixS "daily/" (monthlyKeyOf t) = false := by
  unfold hasPrefixS monthlyKeyOf
  rw [String.data_append, String.data_append]
  rw [show "monthly/".data = 'm' :: "onthly/".data from rfl]
  rw [show "daily/".data = 'd' :: "aily/".data from rfl]
  rw [List.cons_append, List.cons_append]
  exact isPrefixOf_cons_ne _ _ (by decide)

theorem hasPrefixS_daily_yearly (t : DateTime) :
    hasPrefixS "daily/" (yearlyKeyOf t) = false := by
  unfold hasPrefixS yearlyKeyOf
  rw [String.data_append, String.data_append]
  rw [show "yearly/".data = 'y' :: "early/".data from rfl]
  rw [show "daily/".data = 'd' :: "aily/".data from rfl]
  rw [List.cons_append, List.cons_append]
  exact isPrefixOf_cons_ne _ _ (by decide)

theorem head_of_append_lit (c : Char) (l : List Char) (x : String) (s : String)
    (h : s.data = c :: l) : (s ++ x).data.head? = some c := by
  rw [String.data_append, h, List.cons_append, List.head?_cons]

theorem dailyKeyOf_ne_monthlyKeyOf (t u : DateTime) : dailyKeyOf t ≠ monthlyKeyOf u := by
  intro h
  have h1 := head_of_append_lit 'd' "aily/".data (fmtDay t ++ "-backup.sql") "daily/" rfl
  have h2 := head_of_append_lit 'm' "onthly/".data (fmtMonth u ++ "-backup.sql") "monthly/" rfl
  rw [show dailyKeyOf t = "daily/" ++ (fmtDay t ++ "-backup.sql") by
        unfold dailyKeyOf; rw [String.append_assoc]] at h
  rw [show monthlyKeyOf u = "monthly/" ++ (fmtMonth u ++ "-backup.sql") by
        unfold monthlyKeyOf; rw [String.append_assoc]] at h
  rw [h, h2] at h1
  simp at h1

theorem dailyKeyOf_ne_yearlyKeyOf (t u : DateTime) : dailyKeyOf t ≠ yearlyKeyOf u := by
  intro h
  have h1 := head_of_append_lit 'd' "aily/".data (fmtDay t ++ "-backup.sql") "daily/" rfl
  have h2 := head_of_append_lit 'y' "early/".data (fmtYear u ++ "-backup.sql") "yearly/" rfl
  rw [show dailyKeyOf t = "daily/" ++ (fmtDay t ++ "-backup.sql") by
        unfold dailyKeyOf; rw [String.append_assoc]] at h
  rw [show yearlyKeyOf u = "yearly/" ++ (fmtYear u ++ "-backup.sql") by
        unfold yearlyKeyOf; rw [String.append_assoc]] at h
  rw [h, h2] at h1
  simp at h1

theorem monthlyKeyOf_ne_yearlyKeyOf (t u : DateTime) : monthlyKeyOf t ≠ yearlyKeyOf u := by
  intro h
  have h1 := head_of_append_lit 'm' "onthly/".data (fmtMonth t ++ "-backup.sql") "monthly/" rfl
  have h2 := head_of_append_lit 'y' "early/".data (fmtYear u ++ "-backup.sql") "yearly/" rfl
  rw [show monthlyKeyOf t = "monthly/" ++ (fmtMonth t ++ "-backup.sql") by
        unfold monthlyKeyOf; rw [String.append_assoc]] at h
  rw [show yearlyKeyOf u = "yearly/" ++ (fmtYear u ++ "-backup.sql") by
        unfold yearlyKeyOf; rw [String.append_assoc]] at h
  rw [h, h2] at h1
  simp at h1

/- Store lookup lemmas. -/

theorem find?_filter_ne_key (l : List (String × S3Object)) (x k : String) :
    (l.filter (fun p => !(p.1 == x))).find? (fun p => p.1 == k) =
      if k = x then none else l.find? (fun p => p.1 == k) := by
  induction l with
  | nil => simp
  | cons p l ih =>
    by_cases hpx : p.1 = x
    · have : (!(p.1 == x)) = false := by simp [hpx]
      rw [List.filter_cons, this]
      simp only [Bool.false_eq_true, if_false]
      rw [ih]
      by_cases hkx : k = x
      · simp [hkx]
      · have hpk : (p.1 == k) = false := by
          refine beq_eq_false_iff_ne.mpr ?_
          rw [hpx]; exact fun hh => hkx hh.symm
        simp [hkx, List.find?_cons, hpk]
    · have : (!(p.1 == x)) = true := by simp [hpx]
      rw [List.filter_cons, this]
      simp only [if_true]
      by_cases hpk : p.1 = k
      · have hb : (p.1 == k) = true := by simp [hpk]
        by_cases hkx : k = x
        · exact absurd (hpk.trans hkx) hpx
        · simp [List.find?_cons, hb, hkx]
      · have hb : (p.1 == k) = false := beq_eq_false_iff_ne.mpr hpk
        simp only [List.find?_cons, hb]
        rw [ih]

theorem findObj_delete (s : S3State) (x k : String) :
    findObj { s with objects := s.objects.filter (fun p => !(p.1 == x)) } k =
      if k = x then none else findObj s k := by
  unfold findObj
  simp only
  rw [find?_filter_ne_key]
  by_cases h : k = x <;> simp [h]

theorem findObj_upload_ne (s : S3State) (key : String) (data : List Nat) (cs : String)
    (wt : Nat) (k : String) (hk : k ≠ key) :
    findObj (uploadToS3WithChecksum s key data cs wt).2 k = findObj s k := by
  unfold uploadToS3WithChecksum
  by_cases hp : s.putErrKeys.contains key = true
  · rw [if_pos hp]
  · rw [if_neg hp]
    unfold findObj
    simp only
    rw [List.find?_cons_of_neg _ (by
      simp only [beq_eq_false_iff_ne.mpr (fun h : key = k => hk h.symm)]
      exact fun h => Bool.false_ne_true h)]
    rw [find?_filter_ne_key]
    simp [hk]

theorem findObj_upload_self (s : S3State) (key : String) (data : List Nat) (cs : String)
    (wt : Nat) (hp : s.putErrKeys.contains key = false) :
    findObj (uploadToS3WithChecksum s key data cs wt).2 key = some ⟨data, some cs, wt⟩ := by
  unfold uploadToS3WithChecksum
  rw [if_neg (by rw [hp]; exact Bool.false_ne_true)]
  unfold findObj
  simp only
  rw [List.find?_cons_of_pos _ (by simp)]
  rfl

theorem uploadToS3WithChecksum_err (s : S3State) (key : String) (data : List Nat)
    (cs : String) (wt : Nat) (hp : s.putErrKeys.contains key = true) :
    uploadToS3WithChecksum s key data cs wt = (.error "put failed", s) := by
  unfold uploadToS3WithChecksum
  rw [if_pos hp]

/- Phase equations. -/

theorem tierPhase_exists (label key : String) (data : List Nat) (cs : String) (wt : Nat)
    (s : S3State) (o : S3Object) (hh : s.headErrKeys.contains key = false)
    (ho : findObj s key = some o) :
    tierPhase label key data cs wt s = (.ok (), s, [Event.headOp key]) := by
  unfold tierPhase objectExists
  rw [if_neg (by rw [hh]; exact Bool.false_ne_true), ho]
  rfl

theorem tierPhase_headErr (label key : String) (data : List Nat) (cs : String) (wt : Nat)
    (s : S3State) (hh : s.headErrKeys.contains key = true) :
    tierPhase label key data cs wt s =
      (.error ("failed to check " ++ label ++ " backup: " ++ "head request failed"), s,
        [Event.headOp key]) := by
  unfold tierPhase objectExists
  rw [if_pos hh]

theorem tierPhase_absent_ok (label key : String) (data : List Nat) (cs : String) (wt : Nat)
    (s : S3State) (hh : s.headErrKeys.contains key = false) (ho : findObj s key = none)
    (hp : s.putErrKeys.contains key = false) :
    tierPhase label key data cs wt s =
      (.ok (), (uploadToS3WithChecksum s key data cs wt).2,
        [Event.headOp key, Event.putOp key data (some cs)]) := by
  unfold tierPhase objectExists
  rw [if_neg (by rw [hh]; exact Bool.false_ne_true), ho]
  simp only [Option.isSome_none, Bool.false_eq_true, if_false]
  unfold uploadToS3WithChecksum
  rw [if_neg (by rw [hp]; exact Bool.false_ne_true)]

theorem tierPhase_absent_putErr (label key : String) (data : List Nat) (cs : String)
    (wt : Nat) (s : S3State) (hh : s.headErrKeys.contains key = false)
    (ho : findObj s key = none) (hp : s.putErrKeys.contains key = true) :
    tierPhase label key data cs wt s =
      (.error ("failed to upload " ++ label ++ " backup: " ++ "put failed"), s,
        [Event.headOp key, Event.putOp key data (some cs)]) := by
  unfold tierPhase objectExists
  rw [if_neg (by rw [hh]; exact Bool.false_ne_true), ho]
  simp only [Option.isSome_none, Bool.false_eq_true, if_false]
  rw [uploadToS3WithChecksum_err s key data cs wt hp]

theorem uploadToS3WithChecksum_ok (s : S3State) (key : String) (data : List Nat)
    (cs : String) (wt : Nat) (hp : s.putErrKeys.contains key = false) :
    uploadToS3WithChecksum s key data cs wt =
      (.ok (), { s with
        objects := (key, ⟨data, some cs, wt⟩) :: s.objects.filter (fun p => !(p.1 == key)) }) := by
  unfold uploadToS3WithChecksum
  rw [if_neg (by rw [hp]; exact Bool.false_ne_true)]

theorem dailyPhase_ok (data : List Nat) (cs : String) (now : DateTime) (s : S3State)
    (hp : s.putErrKeys.contains (dailyKeyOf now) = false) :
    dailyPhase data cs now s =
      (.ok (), (uploadToS3WithChecksum s (dailyKeyOf now) data cs (nowSec now)).2,
        [Event.putOp (dailyKeyOf now) data (some cs)]) := by
  simp only [dailyPhase]
  rw [uploadToS3WithChecksum_ok s (dailyKeyOf now) data cs (nowSec now) hp]

theorem dailyPhase_err (data : List Nat) (cs : String) (now : DateTime) (s : S3State)
    (hp : s.putErrKeys.contains (dailyKeyOf now) = true) :
    dailyPhase data cs now s =
      (.error ("failed to upload daily backup: " ++ "put failed"), s,
        [Event.putOp (dailyKeyOf now) data (some cs)]) := by
  simp only [dailyPhase]
  rw [uploadToS3WithChecksum_err s (dailyKeyOf now) data cs (nowSec now) hp]

theorem getObjectChecksum_meta (s : S3State) (k : String) (o : S3Object) (c : String)
    (hh : s.headErrKeys.contains k = false) (ho : findObj s k = some o)
    (hm : o.sha256Meta = some c) :
    getObjectChecksum s k = (.ok c, [Event.headOp k]) := by
  simp only [getObjectChecksum, hh, Bool.false_eq_true, if_false, ho, hm]

theorem getObjectChecksum_fetch (s : S3State) (k : String) (o : S3Object)
    (hh : s.headErrKeys.contains k = false) (ho : findObj s k = some o)
    (hm : o.sha256Meta = none) (hg : s.getErrKeys.contains k = false) :
    getObjectChecksum s k =
      (.ok (calculateChecksum o.payload), [Event.headOp k, Event.getOp k]) := by
  simp only [getObjectChecksum, hh, hg, Bool.false_eq_true, if_false, ho, hm]

theorem getObjectChecksum_events (s : S3State) (k : String) :
    (getObjectChecksum s k).2 = [Event.headOp k] ∨
      (getObjectChecksum s k).2 = [Event.headOp k, Event.getOp k] := by
  unfold getObjectChecksum
  split
  · left; rfl
  · split
    · left; rfl
    · split
      · left; rfl
      · split
        · right; rfl
        · right; rfl

theorem findMostRecentBackup_events (s : S3State) (pre : String) :
    (findMostRecentBackup s pre).2 = [Event.listOp pre] := by
  unfold findMostRecentBackup
  split
  · rfl
  · split <;> rfl

theorem dedupPhase_unchanged (cs : String) (s : S3State) (k : String)
    (hf : (findMostRecentBackup s "daily/").1 = .ok k) (hk : k ≠ "")
    (hc : (getObjectChecksum s k).1 = .ok cs) :
    (dedupPhase cs s).1 = false := by
  simp only [dedupPhase]
  rw [hf]
  simp only [beq_eq_false_iff_ne.mpr hk, Bool.false_eq_true, if_false]
  rw [hc]
  simp

theorem dedupPhase_no_put (cs : String) (s : S3State) :
    ∀ e ∈ (dedupPhase cs s).2, isPutEv e = false := by
  intro e he
  simp only [dedupPhase] at he
  rw [findMostRecentBackup_events] at he
  rcases hfr : (findMostRecentBackup s "daily/").1 with e' | k
  · rw [hfr] at he
    simp only at he
    rcases List.mem_cons.mp he with h | h
    · subst h; rfl
    · simp at h; subst h; rfl
  · rw [hfr] at he
    simp only at he
    by_cases hk : (k == "") = true
    · rw [if_pos hk] at he
      simp at he; subst he; rfl
    · rw [if_neg hk] at he
      have hput : ∀ x ∈ (getObjectChecksum s k).2, isPutEv x = false := by
        intro x hx
        rcases getObjectChecksum_events s k with hg | hg <;> rw [hg] at hx <;> simp at hx
        · subst hx; rfl
        · rcases hx with h1 | h1 <;> subst h1 <;> rfl
      rcases hgc : (getObjectChecksum s k).1 with e'' | c <;> rw [hgc] at he <;>
        simp only at he <;> rw [List.mem_append] at he <;>
        rcases he with h | h
      all_goals try exact hput e h
      all_goals simp at h
      all_goals subst h
      all_goals rfl

/- Field-preservation lemmas. -/

theorem upload_fields (s : S3State) (key : String) (data : List Nat) (cs : String)
    (wt : Nat) :
    ((uploadToS3WithChecksum s key data cs wt).2).headErrKeys = s.headErrKeys ∧
    ((uploadToS3WithChecksum s key data cs wt).2).getErrKeys = s.getErrKeys ∧
    ((uploadToS3WithChecksum s key data cs wt).2).putErrKeys = s.putErrKeys ∧
    ((uploadToS3WithChecksum s key data cs wt).2).delErrKeys = s.delErrKeys ∧
    ((uploadToS3WithChecksum s key data cs wt).2).listFails = s.listFails := by
  unfold uploadToS3WithChecksum
  split <;> simp

/- Pruner lemmas. -/

theorem cleanupStepStore_delErr (n : Nat) (s : S3State) (key : String) :
    (cleanupStepStore n s key).delErrKeys = s.delErrKeys := by
  unfold cleanupStepStore
  split <;> rfl

theorem findObj_cleanupStepStore (n : Nat) (t : S3State) (x k : String) :
    findObj (cleanupStepStore n t x) k =
      if k = x ∧ staleDailyKey n x = true ∧ t.delErrKeys.contains x = false then none
      else findObj t k := by
  unfold cleanupStepStore
  by_cases hc : (staleDailyKey n x && !t.delErrKeys.contains x) = true
  · rw [if_pos hc, findObj_delete]
    have h1 : staleDailyKey n x = true := by
      cases hxx : staleDailyKey n x
      · rw [hxx] at hc; simp at hc
      · rfl
    have h2' : t.delErrKeys.contains x = false := by
      cases hxx : t.delErrKeys.contains x
      · rfl
      · rw [hxx, h1] at hc; simp at hc
    by_cases hkx : k = x
    · rw [if_pos hkx, if_pos ⟨hkx, h1, h2'⟩]
    · rw [if_neg hkx, if_neg (fun hcon => hkx hcon.1)]
  · rw [if_neg hc]
    have hnot : ¬(k = x ∧ staleDailyKey n x = true ∧ t.delErrKeys.contains x = false) := by
      rintro ⟨rfl, ha, hb⟩
      exact hc (by rw [ha, hb]; rfl)
    rw [if_neg hnot]

theorem foldl_cleanup_delErr (n : Nat) (l : List String) :
    ∀ (t : S3State) (e : List Event),
      ((l.foldl (cleanupStep n) (t, e)).1).delErrKeys = t.delErrKeys := by
  induction l with
  | nil => intro t e; rfl
  | cons x l ih =>
    intro t e
    rw [List.foldl_cons,
      show cleanupStep n (t, e) x =
        (cleanupStepStore n t x, e ++ stepEvents t.delErrKeys n x) from rfl]
    rw [ih]
    exact cleanupStepStore_delErr n t x

theorem foldl_cleanup_events (n : Nat) (l : List String) :
    ∀ (t : S3State) (e : List Event),
      (l.foldl (cleanupStep n) (t, e)).2 =
        e ++ (l.map (stepEvents t.delErrKeys n)).flatten := by
  induction l with
  | nil => intro t e; simp
  | cons x l ih =>
    intro t e
    rw [List.foldl_cons,
      show cleanupStep n (t, e) x =
        (cleanupStepStore n t x, e ++ stepEvents t.delErrKeys n x) from rfl]
    rw [ih, cleanupStepStore_delErr]
    simp [List.append_assoc]

theorem foldl_cleanup_findObj (n : Nat) (l : List String) :
    ∀ (t : S3State) (e : List Event) (k : String),
      findObj (l.foldl (cleanupStep n) (t, e)).1 k =
        if k ∈ l ∧ staleDailyKey n k = true ∧ t.delErrKeys.contains k = false then none
        else findObj t k := by
  induction l with
  | nil => intro t e k; simp
  | cons x l ih =>
    intro t e k
    rw [List.foldl_cons,
      show cleanupStep n (t, e) x =
        (cleanupStepStore n t x, e ++ stepEvents t.delErrKeys n x) from rfl]
    rw [ih, cleanupStepStore_delErr, findObj_cleanupStepStore]
    by_cases hst : staleDailyKey n k = true ∧ t.delErrKeys.contains k = false
    · obtain ⟨hs1, hs2⟩ := hst
      by_cases hkl : k ∈ l
      · rw [if_pos ⟨hkl, hs1, hs2⟩, if_pos ⟨List.mem_cons_of_mem x hkl, hs1, hs2⟩]
      · by_cases hkx : k = x
        · rw [if_neg (fun hcon => hkl hcon.1), if_pos ⟨hkx, hkx ▸ hs1, hkx ▸ hs2⟩,
            if_pos ⟨List.mem_cons.mpr (Or.inl hkx), hs1, hs2⟩]
        · rw [if_neg (fun hcon => hkl hcon.1), if_neg (fun hcon => hkx hcon.1),
            if_neg (by
              rintro ⟨hmem, _, _⟩
              rcases List.mem_cons.mp hmem with h | h
              · exact hkx h
              · exact hkl h)]
    · have hxcond : ¬(k = x ∧ staleDailyKey n x = true ∧ t.delErrKeys.contains x = false) := by
        rintro ⟨hkx, ha, hb⟩
        exact hst ⟨hkx.symm ▸ ha, hkx.symm ▸ hb⟩
      rw [if_neg (by tauto), if_neg hxcond, if_neg (by tauto)]

theorem cleanup_res_ok (s : S3State) (n : Nat) (hl : s.listFails = false) :
    (cleanupOldDailyBackups s n).res = .ok () := by
  simp only [cleanupOldDailyBackups, hl, Bool.false_eq_true, if_false]

theorem cleanup_events_eq (s : S3State) (n : Nat) (hl : s.listFails = false) :
    (cleanupOldDailyBackups s n).events =
      [Event.listOp "daily/"] ++
        (((s.objects.filter (fun p => hasPrefixS "daily/" p.1)).map Prod.fst).map
          (stepEvents s.delErrKeys n)).flatten := by
  simp only [cleanupOldDailyBackups, hl, Bool.false_eq_true, if_false]
  rw [foldl_cleanup_events]

theorem cleanup_findObj (s : S3State) (n : Nat) (k : String) (hl : s.listFails = false) :
    findObj (cleanupOldDailyBackups s n).store k =
      if hasPrefixS "daily/" k = true ∧ staleDailyKey n k = true ∧
          s.delErrKeys.contains k = false then none
      else findObj s k := by
  simp only [cleanupOldDailyBackups, hl, Bool.false_eq_true, if_false]
  rw [foldl_cleanup_findObj]
  by_cases hpre : hasPrefixS "daily/" k = true
  · by_cases hmem : k ∈ (s.objects.filter (fun p => hasPrefixS "daily/" p.1)).map Prod.fst
    · by_cases hrest : staleDailyKey n k = true ∧ s.delErrKeys.contains k = false
      · obtain ⟨h1, h2⟩ := hrest
        simp [hmem, hpre, h1, h2]
      · rw [if_neg (by tauto), if_neg (by tauto)]
    · have hnone : findObj s k = none := by
        unfold findObj
        rw [List.find?_eq_none.mpr]
        · rfl
        · intro p hp hbeq
          apply hmem
          refine List.mem_map.mpr ⟨p, List.mem_filter.mpr ⟨hp, ?_⟩, eq_of_beq hbeq⟩
          rw [eq_of_beq hbeq]
          exact hpre
      by_cases hrest : staleDailyKey n k = true ∧ s.delErrKeys.contains k = false
      · obtain ⟨h1, h2⟩ := hrest
        rw [if_neg (by tauto), if_pos ⟨hpre, h1, h2⟩]
        exact hnone
      · rw [if_neg (by tauto), if_neg (by tauto)]
  · have hmem : k ∉ (s.objects.filter (fun p => hasPrefixS "daily/" p.1)).map Prod.fst := by
      intro hk
      obtain ⟨p, hp, hpk⟩ := List.mem_map.mp hk
      have := (List.mem_filter.mp hp).2
      rw [hpk] at this
      rw [this] at hpre
      exact hpre rfl
    rw [if_neg (by tauto), if_neg (by tauto)]

theorem cleanup_store_preserve (s : S3State) (n : Nat) (k : String)
    (hpre : hasPrefixS "daily/" k = false) :
    findObj (cleanupOldDailyBackups s n).store k = findObj s k := by
  cases hl : s.listFails with
  | false =>
    rw [cleanup_findObj s n k hl]
    rw [if_neg (by rintro ⟨h1, _⟩; rw [hpre] at h1; exact Bool.false_ne_true h1)]
  | true =>
    unfold cleanupOldDailyBackups
    rw [if_pos hl]

theorem stepEvents_no_put (D : List String) (n : Nat) (key : String) :
    ∀ e ∈ stepEvents D n key, isPutEv e = false := by
  intro e he
  simp only [stepEvents] at he
  split at he
  · split at he
    · simp at he; subst he; rfl
    · split at he
      · split at he
        · simp at he
          rcases he with h | h <;> subst h <;> rfl
        · simp at he; subst he; rfl
      · simp at he
  · simp at he

theorem delOp_mem_stepEvents (D : List String) (n : Nat) (key k : String) :
    Event.delOp k ∈ stepEvents D n key ↔ k = key ∧ staleDailyKey n key = true := by
  simp only [stepEvents, staleDailyKey]
  split
  · split
    · rename_i heq
      rw [heq]
      simp
    · rename_i y m d heq
      rw [heq]
      split
      · rename_i hold
        split
        · simp [hold]
        · simp [hold]
      · rename_i hold
        simp [hold]
  · simp

theorem cleanup_no_put (s : S3State) (n : Nat) :
    ∀ e ∈ (cleanupOldDailyBackups s n).events, isPutEv e = false := by
  intro e he
  cases hl : s.listFails with
  | false =>
    rw [cleanup_events_eq s n hl] at he
    simp only [List.singleton_append, List.mem_cons] at he
    rcases he with h | h
    · subst h; rfl
    · rw [List.mem_flatten] at h
      obtain ⟨evl, hevl, hin⟩ := h
      obtain ⟨key, _, hkey⟩ := List.mem_map.mp hevl
      rw [← hkey] at hin
      exact stepEvents_no_put s.delErrKeys n key e hin
  | true =>
    unfold cleanupOldDailyBackups at he
    rw [if_pos hl] at he
    simp at he
    subst he; rfl

theorem cleanup_delOp_iff (s : S3State) (n : Nat) (k : String) (hl : s.listFails = false) :
    Event.delOp k ∈ (cleanupOldDailyBackups s n).events ↔
      (∃ o, (k, o) ∈ s.objects) ∧ hasPrefixS "daily/" k = true ∧
        staleDailyKey n k = true := by
  rw [cleanup_events_eq s n hl]
  simp only [List.singleton_append, List.mem_cons]
  constructor
  · rintro (h | h)
    · exact absurd h (by simp)
    · rw [List.mem_flatten] at h
      obtain ⟨evl, hevl, hin⟩ := h
      obtain ⟨key, hkeymem, hkey⟩ := List.mem_map.mp hevl
      rw [← hkey] at hin
      obtain ⟨hkk, hst⟩ := (delOp_mem_stepEvents s.delErrKeys n key k).mp hin
      subst hkk
      obtain ⟨p, hp, hpk⟩ := List.mem_map.mp hkeymem
      rcases List.mem_filter.mp hp with ⟨hpo, hppre⟩
      refine ⟨⟨p.2, ?_⟩, ?_, hst⟩
      · rw [← hpk]; exact hpo
      · rw [← hpk]; exact hppre
  · rintro ⟨⟨o, ho⟩, hpre, hst⟩
    right
    rw [List.mem_flatten]
    refine ⟨stepEvents s.delErrKeys n k, ?_, ?_⟩
    · refine List.mem_map.mpr ⟨k, ?_, rfl⟩
      exact List.mem_map.mpr ⟨(k, o), List.mem_filter.mpr ⟨ho, hpre⟩, rfl⟩
    · exact (delOp_mem_stepEvents s.delErrKeys n k k).mpr ⟨rfl, hst⟩

theorem mem_cleanup_events_of_mem_stepEvents (s : S3State) (n : Nat) (key : String)
    (e : Event) (hl : s.listFails = false)
    (hkey : key ∈ (s.objects.filter (fun p => hasPrefixS "daily/" p.1)).map Prod.fst)
    (he : e ∈ stepEvents s.delErrKeys n key) :
    e ∈ (cleanupOldDailyBackups s n).events := by
  rw [cleanup_events_eq s n hl]
  simp only [List.singleton_append, List.mem_cons]
  right
  rw [List.mem_flatten]
  exact ⟨stepEvents s.delErrKeys n key, List.mem_map.mpr ⟨key, hkey, rfl⟩, he⟩

theorem warnParse_mem_stepEvents (D : List String) (n : Nat) (key : String)
    (h2 : (splitSlash key).length = 2)
    (hp : parseDate (datePartOf key) = none) :
    Event.warnOp ("failed to parse date from key " ++ key) ∈ stepEvents D n key := by
  simp only [stepEvents]
  rw [if_pos (by simp [h2]), hp]
  simp

theorem warnDel_mem_stepEvents (D : List String) (n : Nat) (key : String)
    (hst : staleDailyKey n key = true) (hD : D.contains key = true) :
    Event.warnOp ("failed to delete old backup " ++ key) ∈ stepEvents D n key := by
  simp only [staleDailyKey] at hst
  simp only [stepEvents]
  by_cases hlen : (((splitSlash key).length == 2) = true)
  · rw [if_pos hlen] at hst
    rw [if_pos hlen]
    have hDm : key ∈ D := by simpa using hD
    rcases hpd : parseDate (datePartOf key) with
      _ | ⟨y, m, d⟩
    · rw [hpd] at hst
      simp at hst
    · rw [hpd] at hst
      have hold : dateToDayNumber y m d * 86400 < n - 604800 := by simpa using hst
      simp [hold, hDm]
  · rw [if_neg hlen] at hst; simp at hst

/- Orchestrator helper lemmas. -/

theorem HandleRequest_skip (d : List Nat) (now : DateTime) (s0 : S3State)
    (h : (dedupPhase (calculateChecksum (removeTimestampComments d)) s0).1 = false) :
    HandleRequest d now s0 =
      ⟨none, s0, (dedupPhase (calculateChecksum (removeTimestampComments d)) s0).2,
        false⟩ := by
  simp only [HandleRequest, h, Bool.false_eq_true, if_false]

theorem dailyPhase_putOp_mem (data : List Nat) (cs : String) (now : DateTime)
    (s : S3State) (k : String) (pl : List Nat) (md : Option String)
    (h : Event.putOp k pl md ∈ (dailyPhase data cs now s).2.2) :
    k = dailyKeyOf now ∧ pl = data ∧ md = some cs := by
  simp only [dailyPhase] at h
  rcases hup : uploadToS3WithChecksum s (dailyKeyOf now) data cs (nowSec now) with ⟨r, s'⟩
  rw [hup] at h
  cases r <;> simp at h <;> exact ⟨h.1, h.2.1, h.2.2⟩

theorem tierPhase_putOp_mem (label key : String) (data : List Nat) (cs : String)
    (wt : Nat) (s : S3State) (k : String) (pl : List Nat) (md : Option String)
    (h : Event.putOp k pl md ∈ (tierPhase label key data cs wt s).2.2) :
    k = key ∧ pl = data ∧ md = some cs := by
  unfold tierPhase at h
  rcases hoe : objectExists s key with e | b
  · rw [hoe] at h
    simp at h
  · rw [hoe] at h
    cases b
    · rcases hup : uploadToS3WithChecksum s key data cs wt with ⟨r, s'⟩
      rw [hup] at h
      cases r <;> simp at h <;> exact ⟨h.1, h.2.1, h.2.2⟩
    · simp at h

theorem tierPhase_of_exists (label key : String) (data : List Nat) (cs : String)
    (wt : Nat) (s : S3State) (o : S3Object) (ho : findObj s key = some o) :
    (tierPhase label key data cs wt s).2.1 = s ∧
      (tierPhase label key data cs wt s).2.2 = [Event.headOp key] := by
  unfold tierPhase objectExists
  by_cases hh : s.headErrKeys.contains key = true
  · rw [if_pos hh]
    exact ⟨rfl, rfl⟩
  · rw [if_neg hh, ho]
    exact ⟨rfl, rfl⟩

theorem tierPhase_preserve (label key : String) (data : List Nat) (cs : String)
    (wt : Nat) (s : S3State) (k : String) (hk : k ≠ key) :
    findObj (tierPhase label key data cs wt s).2.1 k = findObj s k := by
  unfold tierPhase
  rcases hoe : objectExists s key with e | b
  · rfl
  · cases b
    · rcases hup : uploadToS3WithChecksum s key data cs wt with ⟨r, s'⟩
      have hpres := findObj_upload_ne s key data cs wt k hk
      rw [hup] at hpres
      cases r <;> simpa using hpres
    · rfl

theorem tierPhase_fields (label key : String) (data : List Nat) (cs : String)
    (wt : Nat) (s : S3State) :
    ((tierPhase label key data cs wt s).2.1).headErrKeys = s.headErrKeys ∧
    ((tierPhase label key data cs wt s).2.1).getErrKeys = s.getErrKeys ∧
    ((tierPhase label key data cs wt s).2.1).putErrKeys = s.putErrKeys ∧
    ((tierPhase label key data cs wt s).2.1).delErrKeys = s.delErrKeys ∧
    ((tierPhase label key data cs wt s).2.1).listFails = s.listFails := by
  unfold tierPhase
  rcases hoe : objectExists s key with e | b
  · exact ⟨rfl, rfl, rfl, rfl, rfl⟩
  · cases b
    · rcases hup : uploadToS3WithChecksum s key data cs wt with ⟨r, s'⟩
      have hf := upload_fields s key data cs wt
      rw [hup] at hf
      cases r <;> exact hf
    · exact ⟨rfl, rfl, rfl, rfl, rfl⟩

theorem dailyPhase_preserve (data : List Nat) (cs : String) (now : DateTime)
    (s : S3State) (k : String) (hk : k ≠ dailyKeyOf now) :
    findObj (dailyPhase data cs now s).2.1 k = findObj s k := by
  simp only [dailyPhase]
  rcases hup : uploadToS3WithChecksum s (dailyKeyOf now) data cs (nowSec now) with ⟨r, s'⟩
  have hpres := findObj_upload_ne s (dailyKeyOf now) data cs (nowSec now) k hk
  rw [hup] at hpres
  cases r <;> simpa using hpres

theorem dailyPhase_fields (data : List Nat) (cs : String) (now : DateTime) (s : S3State) :
    ((dailyPhase data cs now s).2.1).headErrKeys = s.headErrKeys ∧
    ((dailyPhase data cs now s).2.1).getErrKeys = s.getErrKeys ∧
    ((dailyPhase data cs now s).2.1).putErrKeys = s.putErrKeys ∧
    ((dailyPhase data cs now s).2.1).delErrKeys = s.delErrKeys ∧
    ((dailyPhase data cs now s).2.1).listFails = s.listFails := by
  simp only [dailyPhase]
  rcases hup : uploadToS3WithChecksum s (dailyKeyOf now) data cs (nowSec now) with ⟨r, s'⟩
  have hf := upload_fields s (dailyKeyOf now) data cs (nowSec now)
  rw [hup] at hf
  cases r <;> exact hf

theorem cleanupWarnTail_no_put (r : Except String Unit) :
    ∀ e ∈ (match r with
      | .error e' => [Event.warnOp ("failed to clean up old daily backups: " ++ e')]
      | .ok _ => ([] : List Event)), isPutEv e = false := by
  intro e he
  cases r
  · simp at he; subst he; rfl
  · simp at he

/-- The claim-level pruning condition: the key has the two-part shape,
its embedded date parses, and that date is strictly more than 7 days
(604800 seconds) before now. -/
def pruneEligible (nowS : Nat) (key : String) : Prop :=
  (splitSlash key).length = 2 ∧
    ∃ y m d, parseDate (datePartOf key) = some (y, m, d) ∧
      604800 < nowS - dateToDayNumber y m d * 86400

theorem staleDailyKey_iff (nowS : Nat) (key : String) :
    staleDailyKey nowS key = true ↔ pruneEligible nowS key := by
  unfold staleDailyKey pruneEligible
  by_cases hlen : (((splitSlash key).length == 2) = true)
  · rw [if_pos hlen]
    have hlen' : (splitSlash key).length = 2 := by simpa using hlen
    rcases hpd : parseDate (datePartOf key) with _ | ⟨y, m, d⟩
    · constructor
      · intro h; simp at h
      · rintro ⟨-, y, m, d, heq, -⟩
        simp at heq
    · constructor
      · intro h
        have hlt : dateToDayNumber y m d * 86400 < nowS - 604800 := by simpa using h
        exact ⟨hlen', y, m, d, rfl, by omega⟩
      · rintro ⟨-, y', m', d', heq, hlt⟩
        simp only [Option.some.injEq, Prod.mk.injEq] at heq
        obtain ⟨rfl, rfl, rfl⟩ := heq
        exact decide_eq_true (by omega)
  · rw [if_neg hlen]
    have hlen' : (splitSlash key).length ≠ 2 := fun h => hlen (by simp [h])
    constructor
    · intro h; simp at h
    · rintro ⟨h2, -⟩; exact absurd h2 hlen'

instance (nowS : Nat) (key : String) : Decidable (pruneEligible nowS key) :=
  decidable_of_iff (staleDailyKey nowS key = true) (staleDailyKey_iff nowS key)

/- Concrete fixtures used by witnesses and counterexamples. -/

/-- A sample raw dump containing a generation-timestamp comment line. -/
def dumpA : List Nat :=
  strBytes "SELECT 1;\n-- Started on 2025-08-10 12:00:00 UTC\nCREATE TABLE t (x int);"

/-- The sample dump after normalization. -/
def normA : List Nat := removeTimestampComments dumpA

/-- A sample run instant: 2025-08-10, noon. -/
def nowA : DateTime := ⟨2025, 8, 10, 43200⟩

/-- A stored daily object carrying the fingerprint of `normA` in its
`sha256` metadata. -/
def objA : S3Object := ⟨normA, some (calculateChecksum normA), 1000⟩

/-- A store holding only yesterday's daily backup with metadata. -/
def storeA : S3State := ⟨[("daily/2025-08-09-backup.sql", objA)], [], [], [], [], false⟩

/-- C8: Normalization is idempotent: for every byte payload, applying
the timestamp-comment removal twice gives the same result as applying
it once. -/
theorem c8_normalization_idempotent (x : List Nat) :
    removeTimestampComments (removeTimestampComments x) = removeTimestampComments x :=
  removeTimestampComments_idem x

/-- C6: two payloads that differ only in generation-timestamp marker
lines (their non-marker line sequences coincide) normalize to identical
bytes, and therefore to identical fingerprints. -/
theorem c6_timestamp_lines_do_not_affect_fingerprint (x y : List Nat)
    (h : (splitOnByte 10 x).filter (fun l => !isTimestampLine l) =
         (splitOnByte 10 y).filter (fun l => !isTimestampLine l)) :
    removeTimestampComments x = removeTimestampComments y ∧
      calculateChecksum (removeTimestampComments x) =
        calculateChecksum (removeTimestampComments y) := by
  have hx : removeTimestampComments x = removeTimestampComments y := by
    unfold removeTimestampComments
    rw [h]
  exact ⟨hx, by rw [hx]⟩

/-- Witness for C6 at two concrete payloads differing in a
"-- Started on" line. -/
theorem c6_witness :
    ((splitOnByte 10 (strBytes "a\nb")).filter (fun l => !isTimestampLine l) =
      (splitOnByte 10 (strBytes "a\n-- Started on 2025-08-10\nb")).filter
        (fun l => !isTimestampLine l)) ∧
    (removeTimestampComments (strBytes "a\nb") =
        removeTimestampComments (strBytes "a\n-- Started on 2025-08-10\nb") ∧
      calculateChecksum (removeTimestampComments (strBytes "a\nb")) =
        calculateChecksum
          (removeTimestampComments (strBytes "a\n-- Started on 2025-08-10\nb"))) :=
  ⟨by decide, c6_timestamp_lines_do_not_affect_fingerprint _ _ (by decide)⟩

/-- C1: when a most-recent daily object exists and its stored
fingerprint equals the fingerprint of the new normalized dump, the run
performs no writes at all: no put is issued, the store is unchanged,
and the run succeeds. -/
theorem c1_unchanged_content_skips_all_writes (rawDump : List Nat) (now : DateTime)
    (s0 : S3State) (k : String)
    (hf : (findMostRecentBackup s0 "daily/").1 = .ok k) (hk : k ≠ "")
    (hc : (getObjectChecksum s0 k).1 =
      .ok (calculateChecksum (removeTimestampComments rawDump))) :
    (∀ key pl md, Event.putOp key pl md ∉ (HandleRequest rawDump now s0).events) ∧
    (HandleRequest rawDump now s0).store = s0 ∧
    (HandleRequest rawDump now s0).err = none := by
  have hded := dedupPhase_unchanged (calculateChecksum (removeTimestampComments rawDump))
    s0 k hf hk hc
  rw [HandleRequest_skip rawDump now s0 hded]
  refine ⟨?_, rfl, rfl⟩
  intro key pl md hmem
  have hfalse := dedupPhase_no_put
    (calculateChecksum (removeTimestampComments rawDump)) s0 _ hmem
  simp [isPutEv] at hfalse

/-- Witness for C1: a store whose most recent daily object carries the
new dump's fingerprint in metadata; the run writes nothing. -/
theorem c1_witness :
    (findMostRecentBackup storeA "daily/").1 = .ok "daily/2025-08-09-backup.sql" ∧
    "daily/2025-08-09-backup.sql" ≠ "" ∧
    (getObjectChecksum storeA "daily/2025-08-09-backup.sql").1 =
      .ok (calculateChecksum (removeTimestampComments dumpA)) ∧
    ((∀ key pl md, Event.putOp key pl md ∉ (HandleRequest dumpA nowA storeA).events) ∧
      (HandleRequest dumpA nowA storeA).store = storeA ∧
      (HandleRequest dumpA nowA storeA).err = none) :=
  ⟨rfl, by decide, rfl,
    c1_unchanged_content_skips_all_writes dumpA nowA storeA
      "daily/2025-08-09-backup.sql" rfl (by decide) rfl⟩

/-- C7: a most-recent daily object without the `sha256` metadata field
does not fail the dedup check: the fingerprint is recovered by fetching
and re-hashing the payload, while an object with the field is answered
from metadata alone, without a fetch; and a run whose re-hashed
fingerprint matches the new dump still skips cleanly. -/
theorem c7_missing_metadata_fallback (s : S3State) (k : String) (o : S3Object)
    (rawDump : List Nat) (now : DateTime)
    (hobj : findObj s k = some o) (hhead : s.headErrKeys.contains k = false) :
    (o.sha256Meta = none → s.getErrKeys.contains k = false →
      (getObjectChecksum s k).1 = .ok (calculateChecksum o.payload) ∧
        Event.getOp k ∈ (getObjectChecksum s k).2) ∧
    (∀ c, o.sha256Meta = some c →
      (getObjectChecksum s k).1 = .ok c ∧
        Event.getOp k ∉ (getObjectChecksum s k).2) ∧
    (o.sha256Meta = none → s.getErrKeys.contains k = false →
      (findMostRecentBackup s "daily/").1 = .ok k → k ≠ "" →
      calculateChecksum o.payload =
        calculateChecksum (removeTimestampComments rawDump) →
      (HandleRequest rawDump now s).err = none ∧
        (∀ key pl md, Event.putOp key pl md ∉ (HandleRequest rawDump now s).events)) := by
  refine ⟨?_, ?_, ?_⟩
  · intro hm hg
    rw [getObjectChecksum_fetch s k o hhead hobj hm hg]
    exact ⟨rfl, by simp⟩
  · intro c hm
    rw [getObjectChecksum_meta s k o c hhead hobj hm]
    exact ⟨rfl, by simp⟩
  · intro hm hg hf hk hcs
    have hc : (getObjectChecksum s k).1 =
        .ok (calculateChecksum (removeTimestampComments rawDump)) := by
      rw [getObjectChecksum_fetch s k o hhead hobj hm hg]
      rw [hcs]
    have hded := dedupPhase_unchanged
      (calculateChecksum (removeTimestampComments rawDump)) s k hf hk hc
    rw [HandleRequest_skip rawDump now s hded]
    refine ⟨rfl, ?_⟩
    intro key pl md hmem
    have hfalse := dedupPhase_no_put
      (calculateChecksum (removeTimestampComments rawDump)) s _ hmem
    simp [isPutEv] at hfalse

/-- A stored daily object without the `sha256` metadata field. -/
def objB : S3Object := ⟨normA, none, 900⟩

/-- A store holding only a legacy (metadata-less) daily backup. -/
def storeB : S3State := ⟨[("daily/2025-08-09-backup.sql", objB)], [], [], [], [], false⟩

/-- Witness for C7 on a legacy object whose payload hashes to the new
dump's fingerprint. -/
theorem c7_witness :
    findObj storeB "daily/2025-08-09-backup.sql" = some objB ∧
    storeB.headErrKeys.contains "daily/2025-08-09-backup.sql" = false ∧
    objB.sha256Meta = none ∧
    storeB.getErrKeys.contains "daily/2025-08-09-backup.sql" = false ∧
    (findMostRecentBackup storeB "daily/").1 = .ok "daily/2025-08-09-backup.sql" ∧
    "daily/2025-08-09-backup.sql" ≠ "" ∧
    calculateChecksum objB.payload =
      calculateChecksum (removeTimestampComments dumpA) ∧
    ((HandleRequest dumpA nowA storeB).err = none ∧
      (∀ key pl md, Event.putOp key pl md ∉ (HandleRequest dumpA nowA storeB).events)) :=
  ⟨rfl, rfl, rfl, rfl, rfl, by decide, rfl,
    (c7_missing_metadata_fallback storeB "daily/2025-08-09-backup.sql" objB dumpA nowA
      rfl rfl).2.2 rfl rfl rfl (by decide) rfl⟩

/-- C5: with a working listing, the pruner issues a delete for exactly
the listed daily objects whose key parses to a date strictly more than
7 days before now; and with no delete faults the resulting store lacks
exactly those keys. -/
theorem c5_prune_deletes_exactly_stale (s : S3State) (nowS : Nat) (key : String)
    (hl : s.listFails = false) :
    (Event.delOp key ∈ (cleanupOldDailyBackups s nowS).events ↔
      (∃ o, (key, o) ∈ s.objects) ∧ hasPrefixS "daily/" key = true ∧
        pruneEligible nowS key) ∧
    (s.delErrKeys = [] →
      findObj (cleanupOldDailyBackups s nowS).store key =
        if hasPrefixS "daily/" key = true ∧ pruneEligible nowS key then none
        else findObj s key) := by
  constructor
  · rw [cleanup_delOp_iff s nowS key hl, staleDailyKey_iff]
  · intro hD
    rw [cleanup_findObj s nowS key hl]
    have hcont : s.delErrKeys.contains key = false := by rw [hD]; rfl
    by_cases h1 : hasPrefixS "daily/" key = true ∧ pruneEligible nowS key
    · rw [if_pos ⟨h1.1, (staleDailyKey_iff nowS key).mpr h1.2, hcont⟩, if_pos h1]
    · rw [if_neg (by
        rintro ⟨hp, hs, -⟩
        exact h1 ⟨hp, (staleDailyKey_iff nowS key).mp hs⟩), if_neg h1]

/-- A tiny payload standing in for stored daily backups in the pruning
scenario. -/
def objDay (lm : Nat) : S3Object := ⟨strBytes "x", some "aaaa", lm⟩

/-- The pruning scenario store: daily objects dated 2025-08-01 through
2025-08-10. -/
def storeP : S3State :=
  ⟨[("daily/2025-08-01-backup.sql", objDay 1),
    ("daily/2025-08-02-backup.sql", objDay 2),
    ("daily/2025-08-03-backup.sql", objDay 3),
    ("daily/2025-08-04-backup.sql", objDay 4),
    ("daily/2025-08-05-backup.sql", objDay 5),
    ("daily/2025-08-06-backup.sql", objDay 6),
    ("daily/2025-08-07-backup.sql", objDay 7),
    ("daily/2025-08-08-backup.sql", objDay 8),
    ("daily/2025-08-09-backup.sql", objDay 9),
    ("daily/2025-08-10-backup.sql", objDay 10)], [], [], [], [], false⟩

/-- The scenario instant: 2025-08-10 midnight, so that exactly the 01
and 02 objects are more than 7 days old. -/
def nowP : Nat := nowSec ⟨2025, 8, 10, 0⟩

/-- Witness for C5: the scenario run on `storeP`; the extra conjuncts
check the claim's concrete expectation that exactly 2025-08-01 and
2025-08-02 are deleted. -/
theorem c5_witness :
    storeP.listFails = false ∧
    ((Event.delOp "daily/2025-08-01-backup.sql" ∈
        (cleanupOldDailyBackups storeP nowP).events ↔
      (∃ o, ("daily/2025-08-01-backup.sql", o) ∈ storeP.objects) ∧
        hasPrefixS "daily/" "daily/2025-08-01-backup.sql" = true ∧
        pruneEligible nowP "daily/2025-08-01-backup.sql") ∧
     (storeP.delErrKeys = [] →
      findObj (cleanupOldDailyBackups storeP nowP).store "daily/2025-08-01-backup.sql" =
        if hasPrefixS "daily/" "daily/2025-08-01-backup.sql" = true ∧
            pruneEligible nowP "daily/2025-08-01-backup.sql" then none
        else findObj storeP "daily/2025-08-01-backup.sql")) ∧
    (cleanupOldDailyBackups storeP nowP).events =
      [Event.listOp "daily/", Event.delOp "daily/2025-08-01-backup.sql",
        Event.delOp "daily/2025-08-02-backup.sql"] ∧
    findObj (cleanupOldDailyBackups storeP nowP).store "daily/2025-08-02-backup.sql" =
      none ∧
    findObj (cleanupOldDailyBackups storeP nowP).store "daily/2025-08-03-backup.sql" =
      some (objDay 3) ∧
    findObj (cleanupOldDailyBackups storeP nowP).store "daily/2025-08-10-backup.sql" =
      some (objDay 10) :=
  ⟨rfl, c5_prune_deletes_exactly_stale storeP nowP "daily/2025-08-01-backup.sql" rfl,
    by decide, by decide, by decide, by decide⟩

/-- C9: pruning is best-effort and per-object: with a working listing it
never fails, a listed key whose date does not parse only produces a
warning, a failed deletion of a stale key only produces a warning, and
every other stale daily key is still removed. -/
theorem c9_prune_best_effort (s : S3State) (nowS : Nat) (hl : s.listFails = false) :
    (cleanupOldDailyBackups s nowS).res = .ok () ∧
    (∀ key o, (key, o) ∈ s.objects → hasPrefixS "daily/" key = true →
      (splitSlash key).length = 2 → parseDate (datePartOf key) = none →
      Event.warnOp ("failed to parse date from key " ++ key) ∈
        (cleanupOldDailyBackups s nowS).events) ∧
    (∀ key o, (key, o) ∈ s.objects → hasPrefixS "daily/" key = true →
      staleDailyKey nowS key = true → s.delErrKeys.contains key = true →
      Event.warnOp ("failed to delete old backup " ++ key) ∈
        (cleanupOldDailyBackups s nowS).events) ∧
    (∀ key, hasPrefixS "daily/" key = true → staleDailyKey nowS key = true →
      s.delErrKeys.contains key = false →
      findObj (cleanupOldDailyBackups s nowS).store key = none) := by
  refine ⟨cleanup_res_ok s nowS hl, ?_, ?_, ?_⟩
  · intro key o ho hpre h2 hpd
    exact mem_cleanup_events_of_mem_stepEvents s nowS key _ hl
      (List.mem_map.mpr ⟨(key, o), List.mem_filter.mpr ⟨ho, hpre⟩, rfl⟩)
      (warnParse_mem_stepEvents s.delErrKeys nowS key h2 hpd)
  · intro key o ho hpre hst hD
    exact mem_cleanup_events_of_mem_stepEvents s nowS key _ hl
      (List.mem_map.mpr ⟨(key, o), List.mem_filter.mpr ⟨ho, hpre⟩, rfl⟩)
      (warnDel_mem_stepEvents s.delErrKeys nowS key hst hD)
  · intro key hpre hst hcont
    rw [cleanup_findObj s nowS key hl, if_pos ⟨hpre, hst, hcont⟩]

/-- The best-effort scenario store: a malformed daily key, a stale key
whose deletion faults, and a stale key that deletes normally. -/
def storeQ : S3State :=
  ⟨[("daily/garbage-backup.sql", objDay 1),
    ("daily/2025-08-01-backup.sql", objDay 2),
    ("daily/2025-08-02-backup.sql", objDay 3)],
   [], [], [], ["daily/2025-08-01-backup.sql"], false⟩

/-- Witness for C9 on `storeQ`: the malformed key warns, the faulted
deletion warns, and the remaining stale key is still removed. -/
theorem c9_witness :
    storeQ.listFails = false ∧
    ((cleanupOldDailyBackups storeQ nowP).res = .ok () ∧
      Event.warnOp ("failed to parse date from key " ++ "daily/garbage-backup.sql") ∈
        (cleanupOldDailyBackups storeQ nowP).events ∧
      Event.warnOp ("failed to delete old backup " ++ "daily/2025-08-01-backup.sql") ∈
        (cleanupOldDailyBackups storeQ nowP).events ∧
      findObj (cleanupOldDailyBackups storeQ nowP).store "daily/2025-08-02-backup.sql" =
        none ∧
      findObj (cleanupOldDailyBackups storeQ nowP).store "daily/2025-08-01-backup.sql" =
        some (objDay 2)) :=
  ⟨rfl,
    (c9_prune_best_effort storeQ nowP rfl).1,
    (c9_prune_best_effort storeQ nowP rfl).2.1 "daily/garbage-backup.sql" (objDay 1)
      (by decide) (by decide) (by decide) (by decide),
    (c9_prune_best_effort storeQ nowP rfl).2.2.1 "daily/2025-08-01-backup.sql" (objDay 2)
      (by decide) (by decide) (by decide) (by decide),
    (c9_prune_best_effort storeQ nowP rfl).2.2.2 "daily/2025-08-02-backup.sql"
      (by decide) (by decide) (by decide),
    by decide⟩

/-- A stale daily object alongside the matching most-recent one, to
observe whether a skipped run prunes. -/
def objOld : S3Object := ⟨strBytes "old", some "aaaa", 10⟩

/-- A store with the matching most-recent daily backup (2025-08-09) and
a stale daily backup (2025-08-01) that pruning would remove. -/
def storeC : S3State :=
  ⟨[("daily/2025-08-09-backup.sql", objA), ("daily/2025-08-01-backup.sql", objOld)],
   [], [], [], [], false⟩

/-- C2 counterexample: a run skipped for unchanged content terminates
successfully without ever invoking pruning — the stale 2025-08-01
object, which pruning would delete, is still present afterwards. -/
theorem c2_counterexample :
    (HandleRequest dumpA nowA storeC).err = none ∧
    (HandleRequest dumpA nowA storeC).cleanupRan = false ∧
    staleDailyKey (nowSec nowA) "daily/2025-08-01-backup.sql" = true ∧
    findObj (HandleRequest dumpA nowA storeC).store "daily/2025-08-01-backup.sql" =
      some objOld := by
  have hded := dedupPhase_unchanged (calculateChecksum (removeTimestampComments dumpA))
    storeC "daily/2025-08-09-backup.sql" rfl (by decide) rfl
  rw [HandleRequest_skip dumpA nowA storeC hded]
  exact ⟨rfl, rfl, by decide, rfl⟩

/-- C2 amended: pruning is invoked exactly on runs that both complete
successfully and had changed content; a skipped run returns success
without invoking pruning, and a run aborted by a tier failure does not
prune either. -/
theorem c2_amended_pruning_iff_changed_success (d : List Nat) (now : DateTime)
    (s0 : S3State) :
    (HandleRequest d now s0).cleanupRan = true ↔
      ((HandleRequest d now s0).err = none ∧
        (dedupPhase (calculateChecksum (removeTimestampComments d)) s0).1 = true) := by
  by_cases hded : (dedupPhase (calculateChecksum (removeTimestampComments d)) s0).1 = true
  · simp only [HandleRequest, hded, if_true]
    split
    · simp
    · split
      · simp
      · split
        · simp
        · simp [hded]
  · have hded' : (dedupPhase (calculateChecksum (removeTimestampComments d)) s0).1 =
        false := by
      cases h : (dedupPhase (calculateChecksum (removeTimestampComments d)) s0).1
      · rfl
      · exact absurd h hded
    rw [HandleRequest_skip d now s0 hded']
    simp [hded']

/-- An empty store whose monthly key head-errors. -/
def storeD : S3State := ⟨[], ["monthly/2025-08-backup.sql"], [], [], [], false⟩

/-- C4 counterexample: a changed-content run whose monthly existence
check fails returns that failure as the run's error instead of
continuing — the failure is fatal, and pruning is not reached. -/
theorem c4_counterexample :
    (HandleRequest dumpA nowA storeD).err =
      some ("failed to check " ++ "monthly" ++ " backup: " ++ "head request failed") ∧
    (HandleRequest dumpA nowA storeD).cleanupRan = false :=
  ⟨rfl, rfl⟩

/-- C4 amended: on a changed-content run with a successful daily write,
a failure of the monthly existence check or monthly write — or, with
the monthly step succeeding, of the yearly existence check or yearly
write — aborts the run with an error, and pruning is not reached; only
the dedup lookup and the pruning step itself are non-fatal. -/
theorem c4_amended_tier_failures_fatal (d : List Nat) (now : DateTime) (s0 : S3State)
    (hch : (dedupPhase (calculateChecksum (removeTimestampComments d)) s0).1 = true)
    (hdaily : s0.putErrKeys.contains (dailyKeyOf now) = false)
    (hfail :
      (s0.headErrKeys.contains (monthlyKeyOf now) = true ∨
        (findObj s0 (monthlyKeyOf now) = none ∧
          s0.putErrKeys.contains (monthlyKeyOf now) = true)) ∨
      ((s0.headErrKeys.contains (monthlyKeyOf now) = false ∧
        (findObj s0 (monthlyKeyOf now) ≠ none ∨
          s0.putErrKeys.contains (monthlyKeyOf now) = false)) ∧
       (s0.headErrKeys.contains (yearlyKeyOf now) = true ∨
        (findObj s0 (yearlyKeyOf now) = none ∧
          s0.putErrKeys.contains (yearlyKeyOf now) = true)))) :
    (HandleRequest d now s0).err ≠ none ∧
      (HandleRequest d now s0).cleanupRan = false := by
  simp only [HandleRequest, hch, if_true]
  rw [dailyPhase_ok (removeTimestampComments d)
    (calculateChecksum (removeTimestampComments d)) now s0 hdaily]
  simp only []
  set s1 := (uploadToS3WithChecksum s0 (dailyKeyOf now) (removeTimestampComments d)
    (calculateChecksum (removeTimestampComments d)) (nowSec now)).2 with hs1
  have hf1 := upload_fields s0 (dailyKeyOf now) (removeTimestampComments d)
    (calculateChecksum (removeTimestampComments d)) (nowSec now)
  rw [← hs1] at hf1
  have hm1 : findObj s1 (monthlyKeyOf now) = findObj s0 (monthlyKeyOf now) := by
    rw [hs1]
    exact findObj_upload_ne s0 (dailyKeyOf now) _ _ _ (monthlyKeyOf now)
      (fun h => dailyKeyOf_ne_monthlyKeyOf now now h.symm)
  have hy1 : findObj s1 (yearlyKeyOf now) = findObj s0 (yearlyKeyOf now) := by
    rw [hs1]
    exact findObj_upload_ne s0 (dailyKeyOf now) _ _ _ (yearlyKeyOf now)
      (fun h => dailyKeyOf_ne_yearlyKeyOf now now h.symm)
  rcases hfail with hmf | ⟨hmok, hyf⟩
  · rcases hmf with hhe | ⟨habs, hpe⟩
    · rw [tierPhase_headErr "monthly" (monthlyKeyOf now) _ _ _ s1
        (by rw [hf1.1]; exact hhe)]
      exact ⟨by simp, rfl⟩
    · cases hx : s1.headErrKeys.contains (monthlyKeyOf now) with
      | true =>
        rw [tierPhase_headErr "monthly" (monthlyKeyOf now) _ _ _ s1 hx]
        exact ⟨by simp, rfl⟩
      | false =>
        rw [tierPhase_absent_putErr "monthly" (monthlyKeyOf now) _ _ _ s1 hx
          (by rw [hm1]; exact habs) (by rw [hf1.2.2.1]; exact hpe)]
        exact ⟨by simp, rfl⟩
  · have hmh1 : s1.headErrKeys.contains (monthlyKeyOf now) = false := by
      rw [hf1.1]; exact hmok.1
    have hstep2 : ∃ s2 : S3State,
        tierPhase "monthly" (monthlyKeyOf now) (removeTimestampComments d)
          (calculateChecksum (removeTimestampComments d)) (nowSec now) s1 =
          (.ok (), s2, (tierPhase "monthly" (monthlyKeyOf now) (removeTimestampComments d)
            (calculateChecksum (removeTimestampComments d)) (nowSec now) s1).2.2) ∧
        s2.headErrKeys = s0.headErrKeys ∧ s2.putErrKeys = s0.putErrKeys ∧
        findObj s2 (yearlyKeyOf now) = findObj s0 (yearlyKeyOf now) := by
      rcases hobj : findObj s0 (monthlyKeyOf now) with _ | o
      · have hpf : s0.putErrKeys.contains (monthlyKeyOf now) = false := by
          rcases hmok.2 with hne | hpf
          · exact absurd hobj hne
          · exact hpf
        rw [tierPhase_absent_ok "monthly" (monthlyKeyOf now) _ _ _ s1 hmh1
          (by rw [hm1]; exact hobj) (by rw [hf1.2.2.1]; exact hpf)]
        refine ⟨(uploadToS3WithChecksum s1 (monthlyKeyOf now) (removeTimestampComments d)
          (calculateChecksum (removeTimestampComments d)) (nowSec now)).2, rfl, ?_, ?_, ?_⟩
        · rw [(upload_fields s1 (monthlyKeyOf now) _ _ _).1, hf1.1]
        · rw [(upload_fields s1 (monthlyKeyOf now) _ _ _).2.2.1, hf1.2.2.1]
        · rw [findObj_upload_ne s1 (monthlyKeyOf now) _ _ _ (yearlyKeyOf now)
            (fun h => monthlyKeyOf_ne_yearlyKeyOf now now h.symm), hy1]
      · rw [tierPhase_exists "monthly" (monthlyKeyOf now) _ _ _ s1 o hmh1
          (by rw [hm1]; exact hobj)]
        refine ⟨s1, rfl, ?_, ?_, hy1⟩
        · rw [hf1.1]
        · rw [hf1.2.2.1]
    obtain ⟨s2, hs2eq, hs2h, hs2p, hs2y⟩ := hstep2
    rw [hs2eq]
    simp only []
    rcases hyf with hhe | ⟨habs, hpe⟩
    · rw [tierPhase_headErr "yearly" (yearlyKeyOf now) _ _ _ s2
        (by rw [hs2h]; exact hhe)]
      exact ⟨by simp, rfl⟩
    · cases hx : s2.headErrKeys.contains (yearlyKeyOf now) with
      | true =>
        rw [tierPhase_headErr "yearly" (yearlyKeyOf now) _ _ _ s2 hx]
        exact ⟨by simp, rfl⟩
      | false =>
        rw [tierPhase_absent_putErr "yearly" (yearlyKeyOf now) _ _ _ s2 hx
          (by rw [hs2y]; exact habs) (by rw [hs2p]; exact hpe)]
        exact ⟨by simp, rfl⟩

/-- Witness for C4 amended: `storeD` head-errors on the monthly key and
the run aborts. -/
theorem c4_witness :
    (dedupPhase (calculateChecksum (removeTimestampComments dumpA)) storeD).1 = true ∧
    storeD.putErrKeys.contains (dailyKeyOf nowA) = false ∧
    storeD.headErrKeys.contains (monthlyKeyOf nowA) = true ∧
    ((HandleRequest dumpA nowA storeD).err ≠ none ∧
      (HandleRequest dumpA nowA storeD).cleanupRan = false) :=
  ⟨rfl, by decide, by decide,
    c4_amended_tier_failures_fatal dumpA nowA storeD rfl (by decide)
      (Or.inl (Or.inl (by decide)))⟩

/-- A monthly/yearly tier step never disturbs a key at which an object
already exists: whether or not that key is the step's own key, the
object survives and no put is issued at it. -/
theorem tierPhase_existing_key_safe (label key : String) (data : List Nat) (cs : String)
    (wt : Nat) (s : S3State) (K : String) (o : S3Object) (ho : findObj s K = some o) :
    findObj (tierPhase label key data cs wt s).2.1 K = some o ∧
    ∀ pl md, Event.putOp K pl md ∉ (tierPhase label key data cs wt s).2.2 := by
  by_cases hk : K = key
  · subst hk
    have hx := tierPhase_of_exists label K data cs wt s o ho
    refine ⟨by rw [hx.1]; exact ho, ?_⟩
    intro pl md hmem
    rw [hx.2] at hmem
    simp at hmem
  · refine ⟨by rw [tierPhase_preserve label key data cs wt s K hk]; exact ho, ?_⟩
    intro pl md hmem
    exact hk (tierPhase_putOp_mem label key data cs wt s K pl md hmem).1

/-- Any key outside the daily prefix and distinct from today's daily
key that already holds an object is left alone by an entire run: no put
is issued at it and the object is unchanged afterwards. -/
theorem HandleRequest_keeps_existing_key (rawDump : List Nat) (now : DateTime)
    (s0 : S3State) (K : String) (o : S3Object)
    (ho : findObj s0 K = some o)
    (hKd : K ≠ dailyKeyOf now)
    (hKpre : hasPrefixS "daily/" K = false) :
    (∀ pl md, Event.putOp K pl md ∉ (HandleRequest rawDump now s0).events) ∧
    findObj (HandleRequest rawDump now s0).store K = some o := by
  by_cases hded :
      (dedupPhase (calculateChecksum (removeTimestampComments rawDump)) s0).1 = true
  · simp only [HandleRequest, hded, if_true]
    set data := removeTimestampComments rawDump with hdataeq
    set cs := calculateChecksum data with hcseq
    split
    · rename_i e s1 ev1 heq
      refine ⟨?_, ?_⟩
      · intro pl md hmem
        rcases List.mem_append.mp hmem with h | h
        · have := dedupPhase_no_put cs s0 _ h
          simp [isPutEv] at this
        · exact hKd
            (dailyPhase_putOp_mem data cs now s0 K pl md (by rw [heq]; exact h)).1
      · have hpres := dailyPhase_preserve data cs now s0 K hKd
        rw [heq] at hpres
        exact hpres.trans ho
    · rename_i u s1 ev1 heq1
      have h1 : findObj s1 K = some o := by
        have hpres := dailyPhase_preserve data cs now s0 K hKd
        rw [heq1] at hpres
        exact hpres.trans ho
      have hs2 := tierPhase_existing_key_safe "monthly" (monthlyKeyOf now) data cs
        (nowSec now) s1 K o h1
      split
      · rename_i e2 s2 ev2 heq2
        rw [heq2] at hs2
        refine ⟨?_, hs2.1⟩
        intro pl md hmem
        rcases List.mem_append.mp hmem with h | h
        · rcases List.mem_append.mp h with h2 | h2
          · have := dedupPhase_no_put cs s0 _ h2
            simp [isPutEv] at this
          · exact hKd
              (dailyPhase_putOp_mem data cs now s0 K pl md (by rw [heq1]; exact h2)).1
        · exact hs2.2 pl md h
      · rename_i u2 s2 ev2 heq2
        rw [heq2] at hs2
        have hs3 := tierPhase_existing_key_safe "yearly" (yearlyKeyOf now) data cs
          (nowSec now) s2 K o hs2.1
        split
        · rename_i e3 s3 ev3 heq3
          rw [heq3] at hs3
          refine ⟨?_, hs3.1⟩
          intro pl md hmem
          rcases List.mem_append.mp hmem with h | h
          · rcases List.mem_append.mp h with h2 | h2
            · rcases List.mem_append.mp h2 with h3 | h3
              · have := dedupPhase_no_put cs s0 _ h3
                simp [isPutEv] at this
              · exact hKd
                  (dailyPhase_putOp_mem data cs now s0 K pl md
                    (by rw [heq1]; exact h3)).1
            · exact hs2.2 pl md h2
          · exact hs3.2 pl md h
        · rename_i u3 s3 ev3 heq3
          rw [heq3] at hs3
          have hcl : findObj (cleanupOldDailyBackups s3 (nowSec now)).store K =
              some o := by
            rw [cleanup_store_preserve s3 (nowSec now) K hKpre]
            exact hs3.1
          refine ⟨?_, hcl⟩
          intro pl md hmem
          rcases List.mem_append.mp hmem with h | h
          · rcases List.mem_append.mp h with h2 | h2
            · rcases List.mem_append.mp h2 with h3 | h3
              · rcases List.mem_append.mp h3 with h4 | h4
                · have := dedupPhase_no_put cs s0 _ h4
                  simp [isPutEv] at this
                · exact hKd
                    (dailyPhase_putOp_mem data cs now s0 K pl md
                      (by rw [heq1]; exact h4)).1
              · exact hs2.2 pl md h3
            · exact hs3.2 pl md h2
          · rcases List.mem_append.mp h with h2 | h2
            · have := cleanup_no_put s3 (nowSec now) _ h2
              simp [isPutEv] at this
            · have := cleanupWarnTail_no_put
                (cleanupOldDailyBackups s3 (nowSec now)).res _ h2
              simp [isPutEv] at this
  · have hded' :
        (dedupPhase (calculateChecksum (removeTimestampComments rawDump)) s0).1 =
          false := by
      cases hq :
          (dedupPhase (calculateChecksum (removeTimestampComments rawDump)) s0).1
      · rfl
      · exact absurd hq hded
    rw [HandleRequest_skip rawDump now s0 hded']
    refine ⟨?_, ho⟩
    intro pl md hmem
    have := dedupPhase_no_put
      (calculateChecksum (removeTimestampComments rawDump)) s0 _ hmem
    simp [isPutEv] at this

/-- C3: each period key independently is written at most once: whenever
an object already exists at the computed monthly key, the run issues no
put at that key and leaves the object unchanged, and likewise —
independently — for the yearly key; so the first backup of a period
wins and is never overwritten by later runs in the same period. -/
theorem c3_period_keys_written_at_most_once (rawDump : List Nat) (now : DateTime)
    (s0 : S3State) :
    (∀ om, findObj s0 (monthlyKeyOf now) = some om →
      (∀ pl md, Event.putOp (monthlyKeyOf now) pl md ∉
        (HandleRequest rawDump now s0).events) ∧
      findObj (HandleRequest rawDump now s0).store (monthlyKeyOf now) = some om) ∧
    (∀ oy, findObj s0 (yearlyKeyOf now) = some oy →
      (∀ pl md, Event.putOp (yearlyKeyOf now) pl md ∉
        (HandleRequest rawDump now s0).events) ∧
      findObj (HandleRequest rawDump now s0).store (yearlyKeyOf now) = some oy) := by
  constructor
  · intro om hm
    exact HandleRequest_keeps_existing_key rawDump now s0 (monthlyKeyOf now) om hm
      (fun h => dailyKeyOf_ne_monthlyKeyOf now now h.symm) (hasPrefixS_daily_monthly now)
  · intro oy hy
    exact HandleRequest_keeps_existing_key rawDump now s0 (yearlyKeyOf now) oy hy
      (fun h => dailyKeyOf_ne_yearlyKeyOf now now h.symm) (hasPrefixS_daily_yearly now)

/-- A monthly object already stored for 2025-08. -/
def objM : S3Object := ⟨strBytes "m", some "bbbb", 50⟩

/-- A yearly object already stored for 2025. -/
def objY : S3Object := ⟨strBytes "y", some "cccc", 60⟩

/-- A store that already has this period's monthly and yearly objects. -/
def storeM : S3State :=
  ⟨[("monthly/2025-08-backup.sql", objM), ("yearly/2025-backup.sql", objY)],
   [], [], [], [], false⟩

/-- A store holding only the yearly object: a first run of a new month
in an already-backed-up year. -/
def storeY : S3State := ⟨[("yearly/2025-backup.sql", objY)], [], [], [], [], false⟩

set_option maxRecDepth 10000 in
/-- Witness for C3, instantiating each tier's hypothesis separately:
on `storeM` the existing monthly object is untouched, and on `storeY` —
where only the yearly object exists — the yearly object is untouched
even though the run does write the absent monthly key. -/
theorem c3_witness :
    findObj storeM (monthlyKeyOf nowA) = some objM ∧
    findObj storeY (yearlyKeyOf nowA) = some objY ∧
    ((∀ pl md, Event.putOp (monthlyKeyOf nowA) pl md ∉
        (HandleRequest dumpA nowA storeM).events) ∧
      findObj (HandleRequest dumpA nowA storeM).store (monthlyKeyOf nowA) =
        some objM) ∧
    ((∀ pl md, Event.putOp (yearlyKeyOf nowA) pl md ∉
        (HandleRequest dumpA nowA storeY).events) ∧
      findObj (HandleRequest dumpA nowA storeY).store (yearlyKeyOf nowA) =
        some objY) ∧
    Event.putOp (monthlyKeyOf nowA) (removeTimestampComments dumpA)
      (some (calculateChecksum (removeTimestampComments dumpA))) ∈
      (HandleRequest dumpA nowA storeY).events :=
  ⟨by decide, by decide,
    (c3_period_keys_written_at_most_once dumpA nowA storeM).1 objM (by decide),
    (c3_period_keys_written_at_most_once dumpA nowA storeY).2 objY (by decide),
    by decide⟩

/-- C10: every put the run issues stores the run's normalized dump as
its payload and carries a `sha256` metadata field holding the
fingerprint of exactly that payload — so the daily, monthly, and yearly
writes of one run share one payload and one checksum. -/
theorem c10_every_write_carries_matching_checksum (d : List Nat) (now : DateTime)
    (s0 : S3State) (k : String) (pl : List Nat) (md : Option String)
    (h : Event.putOp k pl md ∈ (HandleRequest d now s0).events) :
    pl = removeTimestampComments d ∧
      md = some (calculateChecksum (removeTimestampComments d)) := by
  by_cases hded :
      (dedupPhase (calculateChecksum (removeTimestampComments d)) s0).1 = true
  · simp only [HandleRequest, hded, if_true] at h
    set data := removeTimestampComments d with hdataeq
    set cs := calculateChecksum data with hcseq
    split at h
    · rename_i e s1 ev1 heq
      rcases List.mem_append.mp h with h' | h'
      · have := dedupPhase_no_put cs s0 _ h'
        simp [isPutEv] at this
      · have hkk := dailyPhase_putOp_mem data cs now s0 k pl md (by rw [heq]; exact h')
        exact ⟨hkk.2.1, hkk.2.2⟩
    · rename_i u s1 ev1 heq1
      split at h
      · rename_i e2 s2 ev2 heq2
        rcases List.mem_append.mp h with h' | h'
        · rcases List.mem_append.mp h' with h2 | h2
          · have := dedupPhase_no_put cs s0 _ h2
            simp [isPutEv] at this
          · have hkk := dailyPhase_putOp_mem data cs now s0 k pl md
              (by rw [heq1]; exact h2)
            exact ⟨hkk.2.1, hkk.2.2⟩
        · have hkk := tierPhase_putOp_mem "monthly" (monthlyKeyOf now) data cs
            (nowSec now) s1 k pl md (by rw [heq2]; exact h')
          exact ⟨hkk.2.1, hkk.2.2⟩
      · rename_i u2 s2 ev2 heq2
        split at h
        · rename_i e3 s3 ev3 heq3
          rcases List.mem_append.mp h with h' | h'
          · rcases List.mem_append.mp h' with h2 | h2
            · rcases List.mem_append.mp h2 with h3 | h3
              · have := dedupPhase_no_put cs s0 _ h3
                simp [isPutEv] at this
              · have hkk := dailyPhase_putOp_mem data cs now s0 k pl md
                  (by rw [heq1]; exact h3)
                exact ⟨hkk.2.1, hkk.2.2⟩
            · have hkk := tierPhase_putOp_mem "monthly" (monthlyKeyOf now) data cs
                (nowSec now) s1 k pl md (by rw [heq2]; exact h2)
              exact ⟨hkk.2.1, hkk.2.2⟩
          · have hkk := tierPhase_putOp_mem "yearly" (yearlyKeyOf now) data cs
              (nowSec now) s2 k pl md (by rw [heq3]; exact h')
            exact ⟨hkk.2.1, hkk.2.2⟩
        · rename_i u3 s3 ev3 heq3
          rcases List.mem_append.mp h with h' | h'
          · rcases List.mem_append.mp h' with h2 | h2
            · rcases List.mem_append.mp h2 with h3 | h3
              · rcases List.mem_append.mp h3 with h4 | h4
                · have := dedupPhase_no_put cs s0 _ h4
                  simp [isPutEv] at this
                · have hkk := dailyPhase_putOp_mem data cs now s0 k pl md
                    (by rw [heq1]; exact h4)
                  exact ⟨hkk.2.1, hkk.2.2⟩
              · have hkk := tierPhase_putOp_mem "monthly" (monthlyKeyOf now) data cs
                  (nowSec now) s1 k pl md (by rw [heq2]; exact h3)
                exact ⟨hkk.2.1, hkk.2.2⟩
            · have hkk := tierPhase_putOp_mem "yearly" (yearlyKeyOf now) data cs
                (nowSec now) s2 k pl md (by rw [heq3]; exact h2)
              exact ⟨hkk.2.1, hkk.2.2⟩
          · rcases List.mem_append.mp h' with h2 | h2
            · have := cleanup_no_put s3 (nowSec now) _ h2
              simp [isPutEv] at this
            · have := cleanupWarnTail_no_put
                (cleanupOldDailyBackups s3 (nowSec now)).res _ h2
              simp [isPutEv] at this
  · have hded' :
        (dedupPhase (calculateChecksum (removeTimestampComments d)) s0).1 = false := by
      cases hq : (dedupPhase (calculateChecksum (removeTimestampComments d)) s0).1
      · rfl
      · exact absurd hq hded
    rw [HandleRequest_skip d now s0 hded'] at h
    have := dedupPhase_no_put (calculateChecksum (removeTimestampComments d)) s0 _ h
    simp [isPutEv] at this

/-- An empty, fault-free store for exercising a full first run. -/
def storeE : S3State := ⟨[], [], [], [], [], false⟩

set_option maxRecDepth 10000 in
/-- Witness for C10: the daily write of a first run carries the
normalized payload and its checksum. -/
theorem c10_witness :
    Event.putOp (dailyKeyOf nowA) (removeTimestampComments dumpA)
      (some (calculateChecksum (removeTimestampComments dumpA))) ∈
      (HandleRequest dumpA nowA storeE).events ∧
    (removeTimestampComments dumpA = removeTimestampComments dumpA ∧
      some (calculateChecksum (removeTimestampComments dumpA)) =
        some (calculateChecksum (removeTimestampComments dumpA))) :=
  ⟨by decide,
    c10_every_write_carries_matching_checksum dumpA nowA storeE (dailyKeyOf nowA)
      (removeTimestampComments dumpA)
      (some (calculateChecksum (removeTimestampComments dumpA))) (by decide)⟩

